import Mathlib

/-! FormValidator (src/js/form-validation.js): a shallow embedding

JavaScript strings are sequences of UTF-16 code units, and the regular
expressions of the validator carry no `u` flag, so they match code unit by
code unit.  A string value is therefore a list of code units.  Attribute
values that the code only compares for equality (type, name, id, messages)
are kept as Lean strings.
-/

namespace FormValidator

/-! ## Strings and character classes -/

/-- A JavaScript string: its UTF-16 code units. -/
abbrev JSString := List Nat

/-- UTF-16 encoding of one Unicode scalar value. -/
def codeUnits (c : Char) : List Nat :=
  if c.toNat < 65536 then [c.toNat]
  else [55296 + (c.toNat - 65536) / 1024, 56320 + (c.toNat - 65536) % 1024]

/-- The JavaScript string written by a string literal. -/
def js (s : String) : JSString := s.toList.flatMap codeUnits

/-- ECMAScript LineTerminator: LF, CR, U+2028, U+2029. -/
def isLineTerminator (c : Nat) : Bool :=
  c == 10 || c == 13 || c == 8232 || c == 8233

/-- The class `\s`, which is also what `String.prototype.trim` strips:
ECMAScript WhiteSpace (TAB, VT, FF, SP, NBSP, ZWNBSP, category Zs) and
LineTerminator. -/
def isWhiteSpace (c : Nat) : Bool :=
  c == 9 || c == 11 || c == 12 || c == 32 || c == 160 || c == 5760 ||
  (8192 ≤ c && c ≤ 8202) || c == 8239 || c == 8287 || c == 12288 || c == 65279 ||
  isLineTerminator c

/-- The class `\d`, that is `[0-9]`. -/
def isDigit (c : Nat) : Bool := 48 ≤ c && c ≤ 57

/-- The class `[A-Za-z]`. -/
def isAsciiLetter (c : Nat) : Bool := (65 ≤ c && c ≤ 90) || (97 ≤ c && c ≤ 122)

/-- The class `.` without the `s` flag: anything but a line terminator. -/
def isDot (c : Nat) : Bool := !isLineTerminator c

/-- The class `[^\s@]`. -/
def isNotSpaceAt (c : Nat) : Bool := !isWhiteSpace c && c != 64

/-- The class `[1-9]`. -/
def isNonZeroDigit (c : Nat) : Bool := 49 ≤ c && c ≤ 57

/-- Embeds `String.prototype.trim`. -/
def trim (s : JSString) : JSString :=
  ((s.dropWhile isWhiteSpace).reverse.dropWhile isWhiteSpace).reverse

/-! ## Regular expressions

The three patterns of the validator are anchored at both ends (`^ ... $`, no
`m` flag), are sequences of quantified character classes, and one of them
starts with positive lookaheads.  `RegExp.prototype.test` only asks whether a
match exists, so the matcher explores every split of the input.
-/

/-- A quantified character class `X{min,max}`; `max = none` is unbounded. -/
structure Atom where
  cls : Nat → Bool
  min : Nat
  max : Option Nat

/-- Pattern `X` -/
def Atom.one (cls : Nat → Bool) : Atom := ⟨cls, 1, some 1⟩
/-- Pattern `c` -/
def Atom.lit (c : Nat) : Atom := ⟨fun x => x == c, 1, some 1⟩
/-- Pattern `X?` -/
def Atom.opt (cls : Nat → Bool) : Atom := ⟨cls, 0, some 1⟩
/-- Pattern `X*` -/
def Atom.star (cls : Nat → Bool) : Atom := ⟨cls, 0, none⟩
/-- Pattern `X+` -/
def Atom.plus (cls : Nat → Bool) : Atom := ⟨cls, 1, none⟩
/-- Pattern `X{n,}` -/
def Atom.atLeast (cls : Nat → Bool) (n : Nat) : Atom := ⟨cls, n, none⟩
/-- Pattern `X{n,m}` -/
def Atom.range (cls : Nat → Bool) (n m : Nat) : Atom := ⟨cls, n, some m⟩

/-- Match `X{min,max}` at the start of the input, then the continuation `k` on
what is left: first try to take one more character (greedy), then to stop. -/
def matchRep (cls : Nat → Bool) (k : JSString → Bool) : Nat → Option Nat → JSString → Bool
  | min, _, [] => min == 0 && k []
  | min, max, c :: cs =>
    (cls c && max != some 0 && matchRep cls k (min - 1) (max.map (· - 1)) cs)
      || (min == 0 && k (c :: cs))

/-- Match a sequence of atoms at the start of the input, then `k`. -/
def matchSeq : List Atom → (JSString → Bool) → JSString → Bool
  | [], k => k
  | a :: rest, k => matchRep a.cls (matchSeq rest k) a.min a.max

/-- A pattern `^(?=L1)...(?=Ln)BODY$`. -/
structure Regex where
  lookaheads : List (List Atom)
  body : List Atom

/-- Embeds `RegExp.prototype.test` for an anchored pattern: every lookahead matches a
start of the input, and the body matches the whole input. -/
def Regex.test (r : Regex) (s : JSString) : Bool :=
  r.lookaheads.all (fun la => matchSeq la (fun _ => true) s)
    && matchSeq r.body (fun rest => rest.isEmpty) s

/-! ## Values of fields -/

/-- What `getFieldValue` returns: a trimmed string, or the `checked` flag. -/
inductive Value where
  | str (s : JSString)
  | bool (b : Bool)
  deriving DecidableEq, Repr

/-- Embeds `isEmptyValue(value)`; `null` and `undefined` are not values of a form
control. -/
def isEmptyValue : Value → Bool
  | .str s => trim s == []
  | .bool b => !b

/-! ## The validation predicates -/

/-- The literal `/^[^\s@]+@[^\s@]+\.[^\s@]+$/`. -/
def emailRegex : Regex :=
  ⟨[], [Atom.plus isNotSpaceAt, Atom.lit 64, Atom.plus isNotSpaceAt, Atom.lit 46,
        Atom.plus isNotSpaceAt]⟩

/-- The literal `/^[\+]?[1-9][\d]{0,15}$/`. -/
def phoneRegex : Regex :=
  ⟨[], [Atom.opt (fun c => c == 43), Atom.one isNonZeroDigit, Atom.range isDigit 0 15]⟩

/-- The literal `/^(?=.*[A-Za-z])(?=.*\d).{8,}$/`. -/
def passwordRegex : Regex :=
  ⟨[[Atom.star isDot, Atom.one isAsciiLetter], [Atom.star isDot, Atom.one isDigit]],
   [Atom.atLeast isDot 8]⟩

/-- Embeds `isValidEmail(email)` -/
def isValidEmail (email : JSString) : Bool :=
  if isEmptyValue (.str email) then false
  else emailRegex.test email

/-- Embeds `phone.replace(/\D/g, '')`: the digits of the string, in order. -/
def stripNonDigits (s : JSString) : JSString := s.filter isDigit

/-- Embeds `isValidPhone(phone)` -/
def isValidPhone (phone : JSString) : Bool :=
  if isEmptyValue (.str phone) then false
  else phoneRegex.test (stripNonDigits phone)

/-- Embeds `isValidPassword(password)` -/
def isValidPassword (password : JSString) : Bool :=
  if isEmptyValue (.str password) then false
  else passwordRegex.test password

/-! ## The form

A form is the list of its controls (`input`, `select`, `textarea`) in document
order, which is what `querySelectorAll('input, select, textarea')` returns.
Each control knows its place in the tree of the form: the child indices on the
way down from the form element.  Two controls have the same parent element
when their paths differ in the last index only, and an element lies inside
another when the path of the other starts its own.  The lookups `#password` and
`#terms` are taken to find a control of the form.
-/

/-- The element names that `validateForm` selects. -/
inductive Tag where
  | input
  | select
  | textarea
  deriving DecidableEq, Repr

/-- A form control: its place in the form and what the validator reads of it. -/
structure Field where
  path : List Nat
  tag : Tag
  type : String
  name : String
  id : String
  required : Bool
  value : JSString
  checked : Bool
  deriving DecidableEq, Repr

/-- The controls of the form, in document order. -/
abbrev Form := List Field

/-- Embeds `field.parentNode`, as a place in the form. -/
def Field.parentNode (f : Field) : List Nat := f.path.dropLast

/-- Embeds `getFieldValue(field)`; the `value` of a form control is a string. -/
def getFieldValue (field : Field) : Value :=
  if field.type == "checkbox" || field.type == "radio" then .bool field.checked
  else .str (trim field.value)

/-- The string a value is read as where the validator hands it to a pattern.
The type cases are only reached with a string: a checkbox or radio button has
none of the types `email`, `tel`, `password`. -/
def Value.text : Value → JSString
  | .str s => s
  | .bool b => js (if b then "true" else "false")

/-- Embeds `this.form.querySelector('#' + id)`. -/
def querySelectorId (F : Form) (id : String) : Option Field :=
  F.find? (fun f => f.id == id)

/-- Embeds `this.form.querySelector('input[name="timestamp"]')`. -/
def querySelectorTimestamp (F : Form) : Option Field :=
  F.find? (fun f => f.tag == Tag.input && f.name == "timestamp")

/-! ## The display state

What the validator writes: the classes `is-invalid` and `is-valid` of the
controls, the elements of class `invalid-feedback` with their text, the
alerts of class `alert-danger`, and the field remembered for focus.  The
attribute `aria-describedby`, whose value comes from `Math.random`, is left
out.  Feedback elements have no children and are kept in document order.
-/

/-- An element of class `invalid-feedback`: its place in the form and its text. -/
structure Feedback where
  pos : List Nat
  text : String
  deriving DecidableEq, Repr

/-- The display state of a form. -/
structure View where
  invalid : List (List Nat)
  valid : List (List Nat)
  feedback : List Feedback
  alerts : List String
  firstInvalidField : Option (List Nat)
  deriving DecidableEq, Repr

/-- A form on which nothing has been shown yet. -/
def View.initial : View := ⟨[], [], [], [], none⟩

/-- Embeds `classList.add` -/
def classAdd (p : List Nat) (l : List (List Nat)) : List (List Nat) :=
  if p ∈ l then l else p :: l

/-- Embeds `classList.remove` -/
def classRemove (p : List Nat) (l : List (List Nat)) : List (List Nat) :=
  l.filter (fun q => q != p)

/-- The element at `pos` is a descendant of the element at `parent`. -/
def isInside (parent pos : List Nat) : Bool :=
  parent.isPrefixOf pos && parent.length < pos.length

/-- Embeds `parent.querySelector('.invalid-feedback')`: the first descendant of that
class in document order. -/
def querySelectorFeedback (parent : List Nat) (fbs : List Feedback) : Option Feedback :=
  fbs.find? (fun fb => isInside parent fb.pos)

/-- Embeds `errorElement.remove()` for the element `querySelectorFeedback` finds. -/
def removeFirstFeedback (parent : List Nat) (fbs : List Feedback) : List Feedback :=
  fbs.eraseP (fun fb => isInside parent fb.pos)

/-- Embeds `errorElement.textContent = message` for the element
`querySelectorFeedback` finds. -/
def setFirstFeedback (parent : List Nat) (message : String) : List Feedback → List Feedback
  | [] => []
  | fb :: rest =>
    if isInside parent fb.pos then { fb with text := message } :: rest
    else fb :: setFirstFeedback parent message rest

/-- Document order of two places in the tree. -/
def docBefore : List Nat → List Nat → Bool
  | [], [] => false
  | [], _ :: _ => true
  | _ :: _, [] => false
  | a :: as, b :: bs => decide (a < b) || (a == b && docBefore as bs)

/-- The index of the child of `parent` that holds the element at `pos`. -/
def childIndexIn (parent pos : List Nat) : Option Nat :=
  if isInside parent pos then pos[parent.length]? else none

/-- The index a new last child of `parent` gets: behind every child that
holds a control or a feedback element. -/
def nextChildIndex (F : Form) (fbs : List Feedback) (parent : List Nat) : Nat :=
  ((F.map (fun f => f.path) ++ fbs.map (fun fb => fb.pos)).filterMap (childIndexIn parent)).foldl
    (fun m i => max m (i + 1)) 0

/-- Embeds `parent.appendChild(errorElement)` for a new feedback element with the
given text. -/
def appendFeedback (F : Form) (parent : List Nat) (message : String)
    (fbs : List Feedback) : List Feedback :=
  let fb : Feedback := ⟨parent ++ [nextChildIndex F fbs parent], message⟩
  fbs.takeWhile (fun x => docBefore x.pos fb.pos) ++
    fb :: fbs.dropWhile (fun x => docBefore x.pos fb.pos)

/-- Embeds `addFieldError(field, message)` -/
def addFieldError (F : Form) (field : Field) (message : String) (d : View) : View :=
  let d := { d with invalid := classAdd field.path d.invalid,
                    valid := classRemove field.path d.valid }
  let d := match querySelectorFeedback field.parentNode d.feedback with
    | some _ => { d with feedback := setFirstFeedback field.parentNode message d.feedback }
    | none => { d with feedback := appendFeedback F field.parentNode message d.feedback }
  match d.firstInvalidField with
  | some _ => d
  | none => { d with firstInvalidField := some field.path }

/-- Embeds `clearFieldError(field)` -/
def clearFieldError (field : Field) (d : View) : View :=
  { d with invalid := classRemove field.path d.invalid,
           feedback := removeFirstFeedback field.parentNode d.feedback }

/-- Embeds `markFieldAsValid(field)` -/
def markFieldAsValid (field : Field) (d : View) : View :=
  clearFieldError field
    { d with valid := classAdd field.path d.valid,
             invalid := classRemove field.path d.invalid }

/-- Embeds `showGeneralError(message)`: the first alert of the form is removed and a
new one becomes the first child of the form. -/
def showGeneralError (message : String) (d : View) : View :=
  { d with alerts := message :: d.alerts.tail }

/-- Embeds `showFormErrors()`: returns the field that receives the focus. -/
def showFormErrors (d : View) : View × Option (List Nat) :=
  match d.firstInvalidField with
  | some p => ({ d with firstInvalidField := none }, some p)
  | none => (d, none)

/-- The field carries the class `is-invalid`. -/
def View.isInvalid (d : View) (f : Field) : Bool := decide (f.path ∈ d.invalid)

/-- The field carries the class `is-valid`. -/
def View.isValid (d : View) (f : Field) : Bool := decide (f.path ∈ d.valid)

/-- The error message displayed for a field: the text of the feedback element
that `field.parentNode.querySelector('.invalid-feedback')` finds. -/
def View.shownError (d : View) (f : Field) : Option String :=
  (querySelectorFeedback f.parentNode d.feedback).map (fun fb => fb.text)

/-! ## Validation -/

/-- Embeds `validateField(field)`: the new display state and the returned flag. -/
def validateField (F : Form) (field : Field) (d : View) : View × Bool :=
  let value := getFieldValue field
  let d := clearFieldError field d
  if field.required && isEmptyValue value then
    (addFieldError F field "This field is required" d, false)
  else if !field.required && isEmptyValue value then
    (markFieldAsValid field d, true)
  else if field.type == "email" && !isValidEmail value.text then
    (addFieldError F field "Please enter a valid email address" d, false)
  else if field.type == "tel" && !isValidPhone value.text then
    (addFieldError F field "Please enter a valid phone number" d, false)
  else if field.type == "password" && !isValidPassword value.text then
    (addFieldError F field "Password must be at least 8 characters with letters and numbers" d,
      false)
  else if field.name == "confirmPassword" then
    match querySelectorId F "password" with
    | some password =>
      if value != getFieldValue password then
        (addFieldError F field "Passwords do not match" d, false)
      else (markFieldAsValid field d, true)
    | none => (markFieldAsValid field d, true)
  else if field.name == "website" && !isEmptyValue value then
    (addFieldError F field "Spam detected" d, false)
  else (markFieldAsValid field d, true)

/-- Embeds `validatePasswordMatch(password, confirmPassword)` -/
def validatePasswordMatch (F : Form) (password confirmPassword : Field) (d : View) :
    View × Bool :=
  let passwordValue := getFieldValue password
  let confirmValue := getFieldValue confirmPassword
  if !isEmptyValue passwordValue && !isEmptyValue confirmValue
      && passwordValue != confirmValue then
    (addFieldError F confirmPassword "Passwords do not match" d, false)
  else (d, true)

/-- The value of a digit in the given radix, for `parseInt`. -/
def digitValue (radix c : Nat) : Option Nat :=
  let v : Option Nat :=
    if 48 ≤ c ∧ c ≤ 57 then some (c - 48)
    else if 97 ≤ c ∧ c ≤ 122 then some (c - 87)
    else if 65 ≤ c ∧ c ≤ 90 then some (c - 55)
    else none
  v.filter (fun n => n < radix)

/-- Embeds `parseInt(string)` with no radix: leading whitespace is skipped, a sign
and a prefix `0x` are read, then the longest run of digits; `none` is `NaN`.
The result is exact, as it is in JavaScript below 2^53. -/
def parseInt (s : JSString) : Option Int :=
  let s := s.dropWhile isWhiteSpace
  let (sign, s) : Int × JSString :=
    match s with
    | 45 :: r => (-1, r)
    | 43 :: r => (1, r)
    | _ => (1, s)
  let (radix, s) : Nat × JSString :=
    match s with
    | 48 :: 120 :: r => (16, r)
    | 48 :: 88 :: r => (16, r)
    | _ => (10, s)
  let z := s.takeWhile (fun c => (digitValue radix c).isSome)
  if z.isEmpty then none
  else some (sign * ((z.foldl (fun acc c => acc * radix + (digitValue radix c).getD 0) 0 : Nat) : Int))

/-- The loop of `validateForm`: `validateField` on every control, a failure
clearing the flag. -/
def validateFields (F : Form) : List Field → View × Bool → View × Bool
  | [], acc => acc
  | field :: rest, (d, isValid) =>
    let r := validateField F field d
    validateFields F rest (r.1, if !r.2 then false else isValid)

/-- Embeds `validateForm()` at the time `now` of `Date.now()`: the new display state
and the returned flag. -/
def validateForm (F : Form) (now : Int) (d : View) : View × Bool :=
  let (d, isValid) := validateFields F F (d, true)
  let (d, isValid) :=
    match querySelectorId F "terms" with
    | some termsCheckbox =>
      if !termsCheckbox.checked then
        (addFieldError F termsCheckbox "You must agree to the terms and conditions" d, false)
      else (d, isValid)
    | none => (d, isValid)
  match querySelectorTimestamp F with
  | some timestamp =>
    match parseInt timestamp.value with
    | some t =>
      if now - t < 2000 then
        (showGeneralError "Form submitted too quickly. Please try again." d, false)
      else (d, isValid)
    | none => (d, isValid)
  | none => (d, isValid)

/-- The terms check of `validateForm` lets the form through: there is no
`#terms`, or it is checked. -/
def termsChecked (F : Form) : Bool :=
  match querySelectorId F "terms" with
  | some termsCheckbox => termsCheckbox.checked
  | none => true

/-- The speed check of `validateForm` lets the form through: there is no
timestamp field, or `fillTime < 2000` is false. -/
def slowEnough (F : Form) (now : Int) : Bool :=
  match querySelectorTimestamp F with
  | some timestamp =>
    match parseInt timestamp.value with
    | some t => !decide (now - t < 2000)
    | none => true
  | none => true

/-- The type case of `validateField` lets the value of the field through. -/
def typeCheckPasses (field : Field) : Bool :=
  !(field.type == "email" && !isValidEmail (getFieldValue field).text)
    && !(field.type == "tel" && !isValidPhone (getFieldValue field).text)
    && !(field.type == "password" && !isValidPassword (getFieldValue field).text)

/-- No two controls of the form sit at the same place of its tree. -/
def distinctPaths (F : Form) : Prop :=
  ∀ f ∈ F, ∀ g ∈ F, f.path = g.path → f = g

instance (F : Form) : Decidable (distinctPaths F) := by
  unfold distinctPaths
  infer_instance

/-! ## Phone formatting -/

/-- One group `(\d{0,n})` of the pattern of `formatPhoneNumber`: the longest
run of at most `n` digits at the start of the input, and what is left of the
input.  Every group of that pattern can match the empty string, so the greedy
choice is never taken back. -/
def captureDigits (n : Nat) (s : JSString) : JSString × JSString :=
  let g := (s.take n).takeWhile isDigit
  (g, s.drop g.length)

/-- Embeds `value.match(/(\d{0,3})(\d{0,3})(\d{0,4})/)`: the groups 1, 2 and 3.
The pattern matches at index 0 of every string, so that is where the match
starts. -/
def matchPhoneGroups (value : JSString) : JSString × JSString × JSString :=
  let (g1, r1) := captureDigits 3 value
  let (g2, r2) := captureDigits 3 r1
  let (g3, _) := captureDigits 4 r2
  (g1, g2, g3)

/-- The value `formatPhoneNumber` writes back, from the value it reads: 40 is
`(`, 41 is `)`, 32 the space and 45 is `-`. -/
def formatPhoneValue (fieldValue : JSString) : JSString :=
  let value := stripNonDigits fieldValue
  if value.length > 0 then
    let (g1, g2, g3) := matchPhoneGroups value
    if g2.isEmpty then g1
    else [40] ++ g1 ++ [41, 32] ++ g2 ++ (if !g3.isEmpty then [45] ++ g3 else [])
  else value

/-- Embeds `formatPhoneNumber(field)`; the control is taken to keep any string
written to its `value`, as a text or tel input does. -/
def formatPhoneNumber (field : Field) : Field :=
  { field with value := formatPhoneValue field.value }

/-! ## Event listeners -/

/-- The methods that class `FormValidator` defines, in the order of the
source. -/
def definedMethods : List String :=
  ["constructor", "init", "setupEventListeners", "setupCustomValidation",
   "setupPasswordValidation", "setupEmailValidation", "setupPhoneValidation", "setupAntiSpam",
   "validateField", "validateForm", "getFieldValue", "isEmptyValue", "isValidEmail",
   "isValidPhone", "isValidPassword", "formatPhoneNumber", "validatePasswordMatch",
   "addFieldError", "clearFieldError", "markFieldAsValid", "showFormErrors",
   "showGeneralError", "handleSuccessfulSubmission", "getFormData", "resetForm",
   "showSuccessMessage", "generateId"]

/-- An exception: `TypeError: this.method is not a function`. -/
inductive JSError where
  | notAFunction (method : String)
  deriving DecidableEq, Repr

/-- The methods of the class that are called with a field alone, acting on
that field and on the display; `none` for a name the class does not define.
The other methods of the class (see `definedMethods`) take other arguments. -/
def fieldMethod (F : Form) (name : String) : Option (Field × View → Field × View) :=
  if name = "validateField" then some (fun s => (s.1, (validateField F s.1 s.2).1))
  else if name = "formatPhoneNumber" then some (fun s => (formatPhoneNumber s.1, s.2))
  else if name = "clearFieldError" then some (fun s => (s.1, clearFieldError s.1 s.2))
  else if name = "markFieldAsValid" then some (fun s => (s.1, markFieldAsValid s.1 s.2))
  else none

/-- A call `this.name(e.target)` in a listener. -/
def callMethod (F : Form) (name : String) (s : Field × View) :
    Except JSError (Field × View) :=
  match fieldMethod F name with
  | some m => .ok (m s)
  | none => .error (.notAFunction name)

/-- The listener that `setupEmailValidation` registers for `input` on `#email`:
`this.validateEmail(e.target)`. -/
def emailInputListener (F : Form) (target : Field) (d : View) :
    Except JSError (Field × View) :=
  callMethod F "validateEmail" (target, d)

/-- The listener that `setupPhoneValidation` registers for `input` on `#phone`:
`this.formatPhoneNumber(e.target)`, then `this.validatePhone(e.target)`. -/
def phoneInputListener (F : Form) (target : Field) (d : View) :
    Except JSError (Field × View) :=
  (callMethod F "formatPhoneNumber" (target, d)).bind (callMethod F "validatePhone")

/-- The listeners that `setupEventListeners` registers on the form for `input`
and for `focusout`: `this.validateField(e.target)`. -/
def onFieldEvent (F : Form) (target : Field) (d : View) : View :=
  (validateField F target d).1

/-- The listener that `setupEventListeners` registers for `submit`:
`validateForm()`, then `showFormErrors()` when it returns false.  Returned are
the display state and the field that receives the focus.  The other branch,
`handleSuccessfulSubmission()`, writes nothing that the display state records. -/
def onSubmit (F : Form) (now : Int) (d : View) : View × Option (List Nat) :=
  let r := validateForm F now d
  if r.2 then (r.1, none) else showFormErrors r.1

/-- The first control, in form order, whose validation fails. -/
def firstFailing (F : Form) : Option Field :=
  F.find? (fun f => !(validateField F f View.initial).2)

/-! ## Example forms

A registration form as `FormValidator` leaves it after `init`: every visible
control sits in a wrapper element of its own, and `setupAntiSpam` has appended
the honeypot and the timestamp to the form element itself.
-/

/-- A text-like control in its own wrapper, the `n`-th child of the form. -/
def wrapped (n : Nat) (type name : String) (required : Bool) (value : String) : Field :=
  ⟨[n, 0], Tag.input, type, name, name, required, js value, false⟩

/-- The honeypot of `setupAntiSpam`, child `n` of the form. -/
def honeypot (n : Nat) (value : String) : Field :=
  ⟨[n], Tag.input, "text", "website", "", false, js value, false⟩

/-- The timestamp of `setupAntiSpam`, child `n` of the form. -/
def timestampField (n : Nat) (value : String) : Field :=
  ⟨[n], Tag.input, "hidden", "timestamp", "", false, js value, false⟩

/-- The terms checkbox in its own wrapper, child `n` of the form. -/
def termsBox (n : Nat) (checked : Bool) : Field :=
  ⟨[n, 0], Tag.input, "checkbox", "terms", "terms", true, js "on", checked⟩

/-- A registration form: name, email, password, confirmation, terms, and the
two fields of `setupAntiSpam`. -/
def registrationForm (password confirm website : String) (terms : Bool) (stamp : String) :
    Form :=
  [wrapped 0 "text" "fullName" true "Ada Lovelace",
   wrapped 1 "email" "email" true "ada@example.com",
   wrapped 2 "password" "password" true password,
   wrapped 3 "password" "confirmPassword" true confirm,
   termsBox 4 terms,
   honeypot 5 website,
   timestampField 6 stamp]

/-- A form of two controls that share one parent element. -/
def sharedParentForm : Form :=
  [⟨[0, 0], Tag.input, "text", "firstName", "firstName", true, js "", false⟩,
   ⟨[0, 1], Tag.input, "text", "middleName", "middleName", false, js "", false⟩]

/-- A contact form: name, email, phone, message, and the two fields of
`setupAntiSpam`; no `#password`, no `#terms`. -/
def contactForm (email phone stamp : String) : Form :=
  [wrapped 0 "text" "fullName" true "Ada Lovelace",
   wrapped 1 "email" "email" true email,
   wrapped 2 "tel" "phone" false phone,
   wrapped 3 "text" "confirmPassword" false "Abcdef12",
   honeypot 4 "",
   timestampField 5 stamp]

/-- A form without the fields of `setupAntiSpam` and without `#terms`. -/
def bareForm (fullName : String) : Form :=
  [wrapped 0 "text" "fullName" true fullName]

/-- The display state of the registration form, loaded with its other fields
filled in and the terms unchecked, after two `input` events on `#password`: one
at the value "Abcdef1", which fails, and one at "Abcdef12", which passes.
`#password` has no listener of its own, so each event runs the listener of the
form alone. -/
def viewAfterTyping : View :=
  onFieldEvent (registrationForm "Abcdef12" "Abcdef12" "" false "1000")
    (wrapped 2 "password" "password" true "Abcdef12")
    (onFieldEvent (registrationForm "Abcdef1" "Abcdef12" "" false "1000")
      (wrapped 2 "password" "password" true "Abcdef1") View.initial)

/-! ## Lemmas on strings and matching -/

theorem all_whiteSpace_of_trim_nil (s : JSString) (h : trim s = []) :
    ∀ c ∈ s, isWhiteSpace c = true := by
  unfold trim at h
  rw [List.reverse_eq_nil_iff, List.dropWhile_eq_nil_iff] at h
  have h2 : s.dropWhile isWhiteSpace = [] := by
    cases hd : s.dropWhile isWhiteSpace with
    | nil => rfl
    | cons x xs =>
      have hx : isWhiteSpace x = true := h x (by simp [hd])
      have hne : s.dropWhile isWhiteSpace ≠ [] := by simp [hd]
      have := List.head_dropWhile_not isWhiteSpace s hne
      simp [hd, hx] at this
  exact List.dropWhile_eq_nil_iff.mp h2

theorem trim_nil_of_all_whiteSpace (s : JSString) (h : ∀ c ∈ s, isWhiteSpace c = true) :
    trim s = [] := by
  unfold trim
  rw [List.dropWhile_eq_nil_iff.mpr h]
  rfl

theorem isEmptyValue_str (s : JSString) :
    isEmptyValue (.str s) = true ↔ ∀ c ∈ s, isWhiteSpace c = true := by
  simp only [isEmptyValue, beq_iff_eq]
  exact ⟨all_whiteSpace_of_trim_nil s, trim_nil_of_all_whiteSpace s⟩

/-- A trimmed string is blank only when it is empty. -/
theorem trim_eq_nil_of_blank (s : JSString) (h : ∀ c ∈ trim s, isWhiteSpace c = true) :
    trim s = [] := by
  unfold trim at h ⊢
  rw [List.reverse_eq_nil_iff]
  by_contra hne
  have hh := List.head_dropWhile_not isWhiteSpace (s.dropWhile isWhiteSpace).reverse hne
  have hm := h _ (List.mem_reverse.mpr (List.head_mem hne))
  rw [hm] at hh
  exact absurd hh (by decide)

/-- Trimming twice changes nothing for `isEmptyValue`: a text control is empty
exactly when its trimmed value is the empty string. -/
theorem isEmptyValue_trim (s : JSString) :
    isEmptyValue (.str (trim s)) = decide (trim s = []) := by
  rw [Bool.eq_iff_iff, isEmptyValue_str, decide_eq_true_eq]
  constructor
  · exact trim_eq_nil_of_blank s
  · intro h c hc
    rw [h] at hc
    exact absurd hc (List.not_mem_nil c)

/-- What `matchRep` decides: some split of the input puts between `min` and
`max` characters of the class in front, and the continuation accepts the rest. -/
theorem matchRep_iff (cls : Nat → Bool) (k : JSString → Bool) (s : JSString) :
    ∀ (min : Nat) (max : Option Nat),
      matchRep cls k min max s = true ↔
        ∃ a b, s = a ++ b ∧ (∀ c ∈ a, cls c = true) ∧ min ≤ a.length ∧
          (∀ m, max = some m → a.length ≤ m) ∧ k b = true := by
  induction s with
  | nil =>
    intro min max
    simp only [matchRep, Bool.and_eq_true, beq_iff_eq]
    constructor
    · rintro ⟨h0, hk⟩
      exact ⟨[], [], rfl, by simp, by simp [h0], by simp, hk⟩
    · rintro ⟨a, b, hab, -, hmin, -, hk⟩
      have ha : a = [] := by
        cases a with
        | nil => rfl
        | cons x xs => simp at hab
      have hb : b = [] := by
        cases b with
        | nil => rfl
        | cons x xs => simp at hab
      subst ha; subst hb
      exact ⟨by simpa using hmin, hk⟩
  | cons c cs ih =>
    intro min max
    simp only [matchRep, Bool.or_eq_true, Bool.and_eq_true, beq_iff_eq, bne_iff_ne, ne_eq]
    constructor
    · rintro (⟨⟨hc, hmax⟩, hrec⟩ | ⟨h0, hk⟩)
      · obtain ⟨a, b, hab, hall, hmin, hbound, hk⟩ := (ih _ _).mp hrec
        refine ⟨c :: a, b, by simp [hab], ?_, ?_, ?_, hk⟩
        · intro x hx
          rcases List.mem_cons.mp hx with rfl | hx
          · exact hc
          · exact hall x hx
        · simp only [List.length_cons]; omega
        · intro m hm
          subst hm
          have := hbound (m - 1) (by simp)
          have hm0 : m ≠ 0 := by
            intro h; apply hmax; rw [h]
          simp only [List.length_cons]; omega
      · exact ⟨[], c :: cs, rfl, by simp, by simp [h0], by simp, hk⟩
    · rintro ⟨a, b, hab, hall, hmin, hbound, hk⟩
      cases a with
      | nil =>
        right
        simp only [List.nil_append] at hab
        subst hab
        exact ⟨by simpa using hmin, hk⟩
      | cons x xs =>
        left
        simp only [List.cons_append, List.cons.injEq] at hab
        obtain ⟨rfl, rfl⟩ := hab
        refine ⟨⟨hall _ (by simp), ?_⟩, ?_⟩
        · intro hm
          have := hbound 0 hm
          simp at this
        · refine (ih _ _).mpr ⟨xs, b, rfl, fun y hy => hall y (by simp [hy]), ?_, ?_, hk⟩
          · simp only [List.length_cons] at hmin; omega
          · intro m hm
            cases max with
            | none => simp at hm
            | some M =>
              simp only [Option.map_some', Option.some.injEq] at hm
              have := hbound M rfl
              simp only [List.length_cons] at this
              omega

/-- A lookahead `(?=.*X)`: some character of class `X` is preceded by
characters that are not line terminators. -/
theorem lookahead_star_iff (cls : Nat → Bool) (s : JSString) :
    matchSeq [Atom.star isDot, Atom.one cls] (fun _ => true) s = true ↔
      ∃ a c b, s = a ++ c :: b ∧ (∀ x ∈ a, isDot x = true) ∧ cls c = true := by
  simp only [matchSeq, Atom.star, Atom.one, matchRep_iff]
  constructor
  · rintro ⟨a, r, hs, ha, -, -, a2, b, hr, ha2, hmin, hmax, -⟩
    have hlen : a2.length = 1 := by
      have := hmax 1 rfl
      omega
    match a2, hlen with
    | [c], _ =>
      exact ⟨a, c, b, by simp [hs, hr], ha, ha2 c (by simp)⟩
  · rintro ⟨a, c, b, hs, ha, hc⟩
    refine ⟨a, c :: b, hs, ha, Nat.zero_le _, by simp, [c], b, rfl, ?_, by simp, ?_, trivial⟩
    · intro x hx
      simp only [List.mem_singleton] at hx
      rw [hx]
      exact hc
    · intro m hm
      simp only [Option.some.injEq] at hm
      simp [← hm]

/-- The body `.{8,}` between `^` and `$`. -/
theorem dot8_iff (s : JSString) :
    matchSeq [Atom.atLeast isDot 8] (fun rest => rest.isEmpty) s = true ↔
      8 ≤ s.length ∧ ∀ c ∈ s, isDot c = true := by
  simp only [matchSeq, Atom.atLeast, matchRep_iff]
  constructor
  · rintro ⟨a, b, hs, ha, hmin, -, hb⟩
    have hb2 : b = [] := by simpa using hb
    subst hb2
    simp only [List.append_nil] at hs
    subst hs
    exact ⟨hmin, ha⟩
  · rintro ⟨hlen, hall⟩
    exact ⟨s, [], by simp, hall, hlen, by simp, rfl⟩

theorem letter_not_whiteSpace (c : Nat) (h : isAsciiLetter c = true) : isWhiteSpace c = false := by
  simp only [isAsciiLetter, isWhiteSpace, isLineTerminator, Bool.or_eq_true, Bool.and_eq_true,
    decide_eq_true_eq, beq_iff_eq, Bool.or_eq_false_iff, Bool.and_eq_false_iff,
    decide_eq_false_iff_not, beq_eq_false_iff_ne] at *
  omega

/-- The password pattern, spelled out. -/
theorem passwordRegex_test_iff (s : JSString) :
    passwordRegex.test s = true ↔
      8 ≤ s.length ∧ (∀ c ∈ s, isLineTerminator c = false) ∧
        (∃ c ∈ s, isAsciiLetter c = true) ∧ ∃ c ∈ s, isDigit c = true := by
  simp only [Regex.test, passwordRegex, List.all_cons, List.all_nil, Bool.and_true,
    Bool.and_eq_true, lookahead_star_iff, dot8_iff]
  constructor
  · rintro ⟨⟨⟨a, c, b, hs, -, hc⟩, ⟨a2, c2, b2, hs2, -, hc2⟩⟩, hlen, hdot⟩
    refine ⟨hlen, ?_, ⟨c, by simp [hs], hc⟩, ⟨c2, by simp [hs2], hc2⟩⟩
    intro x hx
    simpa [isDot] using hdot x hx
  · rintro ⟨hlen, hlt, ⟨c, hc, hc1⟩, ⟨c2, hc2, hc3⟩⟩
    have hdot : ∀ x ∈ s, isDot x = true := by
      intro x hx
      simp [isDot, hlt x hx]
    obtain ⟨a, b, hs⟩ := List.append_of_mem hc
    obtain ⟨a2, b2, hs2⟩ := List.append_of_mem hc2
    refine ⟨⟨⟨a, c, b, hs, ?_, hc1⟩, ⟨a2, c2, b2, hs2, ?_, hc3⟩⟩, hlen, hdot⟩
    · intro x hx
      exact hdot x (by rw [hs]; simp [hx])
    · intro x hx
      exact hdot x (by rw [hs2]; simp [hx])

theorem isValidPassword_iff (s : JSString) :
    isValidPassword s = true ↔
      8 ≤ s.length ∧ (∀ c ∈ s, isLineTerminator c = false) ∧
        (∃ c ∈ s, isAsciiLetter c = true) ∧ ∃ c ∈ s, isDigit c = true := by
  unfold isValidPassword
  by_cases he : isEmptyValue (.str s) = true
  · simp only [he, if_true, Bool.false_eq_true, false_iff]
    rintro ⟨-, -, ⟨c, hc, hl⟩, -⟩
    have := (isEmptyValue_str s).mp he c hc
    rw [letter_not_whiteSpace c hl] at this
    exact Bool.false_ne_true this
  · simp only [he, if_false, Bool.false_eq_true]
    exact passwordRegex_test_iff s

/-- Matching `X` (exactly one character of a class). -/
theorem matchOne_iff (cls : Nat → Bool) (k : JSString → Bool) (s : JSString) :
    matchRep cls k 1 (some 1) s = true ↔ ∃ c b, s = c :: b ∧ cls c = true ∧ k b = true := by
  rw [matchRep_iff]
  constructor
  · rintro ⟨a, b, hs, ha, hmin, hmax, hk⟩
    have hlen : a.length = 1 := by
      have := hmax 1 rfl
      omega
    match a, hlen with
    | [c], _ => exact ⟨c, b, by simp [hs], ha c (by simp), hk⟩
  · rintro ⟨c, b, hs, hc, hk⟩
    refine ⟨[c], b, by simp [hs], ?_, by simp, ?_, hk⟩
    · intro x hx
      simp only [List.mem_singleton] at hx
      rw [hx]; exact hc
    · intro m hm
      simp only [Option.some.injEq] at hm
      simp [← hm]

/-- Matching `X+`. -/
theorem matchPlus_iff (cls : Nat → Bool) (k : JSString → Bool) (s : JSString) :
    matchRep cls k 1 none s = true ↔
      ∃ a b, s = a ++ b ∧ a ≠ [] ∧ (∀ c ∈ a, cls c = true) ∧ k b = true := by
  rw [matchRep_iff]
  constructor
  · rintro ⟨a, b, hs, ha, hmin, -, hk⟩
    refine ⟨a, b, hs, ?_, ha, hk⟩
    intro h
    rw [h] at hmin
    simp at hmin
  · rintro ⟨a, b, hs, hne, ha, hk⟩
    refine ⟨a, b, hs, ha, ?_, by simp, hk⟩
    cases a with
    | nil => exact absurd rfl hne
    | cons x xs => simp

/-- The email pattern as a decomposition `local @ a . b` into three non-empty
runs of `[^\s@]`. -/
theorem emailRegex_test_iff_parts (s : JSString) :
    emailRegex.test s = true ↔
      ∃ l a b, s = l ++ 64 :: (a ++ 46 :: b) ∧ l ≠ [] ∧ a ≠ [] ∧ b ≠ [] ∧
        (∀ c ∈ l, isNotSpaceAt c = true) ∧ (∀ c ∈ a, isNotSpaceAt c = true) ∧
        (∀ c ∈ b, isNotSpaceAt c = true) := by
  simp only [Regex.test, emailRegex, List.all_nil, Bool.true_and, matchSeq, Atom.plus, Atom.lit,
    matchPlus_iff, matchOne_iff, beq_iff_eq]
  constructor
  · rintro ⟨l, r1, hs, hl, hlall, c1, r2, hr1, hc1, a, r3, hr2, ha, haall, c2, r4, hr3, hc2,
      b, r5, hr4, hb, hball, hr5⟩
    have h5 : r5 = [] := by simpa using hr5
    subst h5
    refine ⟨l, a, b, ?_, hl, ha, hb, hlall, haall, hball⟩
    rw [hs, hr1, hc1, hr2, hr3, hc2, hr4]
    simp
  · rintro ⟨l, a, b, hs, hl, ha, hb, hlall, haall, hball⟩
    exact ⟨l, 64 :: (a ++ 46 :: b), hs, hl, hlall, 64, a ++ 46 :: b, rfl, rfl, a, 46 :: b, rfl, ha,
      haall, 46, b, rfl, rfl, b, [], by simp, hb, hball, rfl⟩

theorem isNotSpaceAt_iff (c : Nat) :
    isNotSpaceAt c = true ↔ isWhiteSpace c = false ∧ c ≠ 64 := by
  simp [isNotSpaceAt]

/-- The email pattern in words: exactly one `@`, no whitespace, and a
decomposition `local @ a . b` with all three parts non-empty. -/
theorem emailRegex_test_iff (s : JSString) :
    emailRegex.test s = true ↔
      s.count 64 = 1 ∧ (∀ c ∈ s, isWhiteSpace c = false) ∧
        ∃ l a b, s = l ++ 64 :: (a ++ 46 :: b) ∧ l ≠ [] ∧ a ≠ [] ∧ b ≠ [] := by
  rw [emailRegex_test_iff_parts]
  constructor
  · rintro ⟨l, a, b, hs, hl, ha, hb, hlall, haall, hball⟩
    have nl : (64 : Nat) ∉ l := fun h => ((isNotSpaceAt_iff _).mp (hlall _ h)).2 rfl
    have na : (64 : Nat) ∉ a := fun h => ((isNotSpaceAt_iff _).mp (haall _ h)).2 rfl
    have nb : (64 : Nat) ∉ b := fun h => ((isNotSpaceAt_iff _).mp (hball _ h)).2 rfl
    refine ⟨?_, ?_, l, a, b, hs, hl, ha, hb⟩
    · rw [hs]
      simp [List.count_append, List.count_cons, List.count_eq_zero_of_not_mem nl,
        List.count_eq_zero_of_not_mem na, List.count_eq_zero_of_not_mem nb]
    · intro c hc
      rw [hs] at hc
      simp only [List.mem_append, List.mem_cons] at hc
      rcases hc with h | h | h | h | h
      · exact ((isNotSpaceAt_iff _).mp (hlall _ h)).1
      · rw [h]; decide
      · exact ((isNotSpaceAt_iff _).mp (haall _ h)).1
      · rw [h]; decide
      · exact ((isNotSpaceAt_iff _).mp (hball _ h)).1
  · rintro ⟨hcount, hws, l, a, b, hs, hl, ha, hb⟩
    have hc : l.count 64 + (a.count 64 + b.count 64 + 1) = 1 := by
      rw [hs] at hcount
      simpa [List.count_append, List.count_cons] using hcount
    have nl : (64 : Nat) ∉ l := List.count_eq_zero.mp (by omega)
    have na : (64 : Nat) ∉ a := List.count_eq_zero.mp (by omega)
    have nb : (64 : Nat) ∉ b := List.count_eq_zero.mp (by omega)
    refine ⟨l, a, b, hs, hl, ha, hb, ?_, ?_, ?_⟩
    · intro c hc
      exact (isNotSpaceAt_iff c).mpr ⟨hws c (by rw [hs]; simp [hc]), fun h => nl (h ▸ hc)⟩
    · intro c hc
      exact (isNotSpaceAt_iff c).mpr ⟨hws c (by rw [hs]; simp [hc]), fun h => na (h ▸ hc)⟩
    · intro c hc
      exact (isNotSpaceAt_iff c).mpr ⟨hws c (by rw [hs]; simp [hc]), fun h => nb (h ▸ hc)⟩

/-- A string that matches the email pattern is not blank, so the guard of
`isValidEmail` never rejects it. -/
theorem isValidEmail_eq_test (s : JSString) : isValidEmail s = emailRegex.test s := by
  unfold isValidEmail
  by_cases he : isEmptyValue (.str s) = true
  · simp only [he, if_true]
    cases ht : emailRegex.test s with
    | false => rfl
    | true =>
      obtain ⟨-, hws, l, a, b, hs, hl, -, -⟩ := (emailRegex_test_iff s).mp ht
      cases l with
      | nil => exact absurd rfl hl
      | cons x xs =>
        have h1 := (isEmptyValue_str s).mp he x (by rw [hs]; simp)
        have h2 := hws x (by rw [hs]; simp)
        rw [h1] at h2
        exact absurd h2 (by decide)
  · simp [he]

/-- A string that passes has a `.` after each of its `@`. -/
theorem dot_after_at_of_test (l r : JSString) (h : emailRegex.test (l ++ 64 :: r) = true) :
    46 ∈ r := by
  obtain ⟨l2, a, b, hs, -, -, -, hl2, ha, hb⟩ := (emailRegex_test_iff_parts _).mp h
  have nl : (64 : Nat) ∉ l2 := fun h => ((isNotSpaceAt_iff _).mp (hl2 _ h)).2 rfl
  have nab : (64 : Nat) ∉ a ++ 46 :: b := by
    intro h
    simp only [List.mem_append, List.mem_cons] at h
    rcases h with h | h | h
    · exact ((isNotSpaceAt_iff _).mp (ha _ h)).2 rfl
    · exact absurd h (by decide)
    · exact ((isNotSpaceAt_iff _).mp (hb _ h)).2 rfl
  rcases List.append_eq_append_iff.mp hs with ⟨t, ht1, ht2⟩ | ⟨t, ht1, ht2⟩
  · cases t with
    | nil =>
      simp only [List.nil_append, List.cons.injEq, true_and] at ht2
      rw [ht2]; simp
    | cons x t =>
      simp only [List.cons_append, List.cons.injEq] at ht2
      exact absurd (by rw [ht1, ← ht2.1]; simp) nl
  · cases t with
    | nil =>
      simp only [List.nil_append, List.cons.injEq, true_and] at ht2
      rw [← ht2]; simp
    | cons x t =>
      simp only [List.cons_append, List.cons.injEq] at ht2
      exact absurd (by rw [ht2.2]; simp) nab

/-- The phone pattern on a string of digits. -/
theorem phoneRegex_test_digits (d : JSString) (hd : ∀ c ∈ d, isDigit c = true) :
    phoneRegex.test d = true ↔ 1 ≤ d.length ∧ d.length ≤ 16 ∧ d.head? ≠ some 48 := by
  simp only [Regex.test, phoneRegex, List.all_nil, Bool.true_and, matchSeq, Atom.opt, Atom.one,
    Atom.range, matchOne_iff]
  rw [matchRep_iff]
  simp only [matchOne_iff]
  constructor
  · rintro ⟨a, b, hs, ha, -, -, c, r, hb, hc, hr⟩
    obtain ⟨a2, b2, hr2, -, -, hmax, hb2⟩ := (matchRep_iff _ _ _ _ _).mp hr
    have hb2n : b2 = [] := by simpa using hb2
    have hlen := hmax 15 rfl
    have ha0 : a = [] := by
      cases a with
      | nil => rfl
      | cons x xs =>
        have hx : x = 43 := by simpa using ha x (by simp)
        have := hd x (by rw [hs]; simp)
        rw [hx] at this
        exact absurd this (by decide)
    subst ha0; subst hb2n
    simp only [List.nil_append] at hs
    simp only [List.append_nil] at hr2
    subst hr2
    rw [hs, hb]
    refine ⟨by simp, by simp only [List.length_cons]; omega, ?_⟩
    simp only [List.head?_cons, ne_eq, Option.some.injEq]
    intro h
    rw [h] at hc
    exact absurd hc (by decide)
  · rintro ⟨h1, h16, hhead⟩
    cases d with
    | nil => simp at h1
    | cons c r =>
      refine ⟨[], c :: r, rfl, by simp, Nat.le_refl _, by simp, c, r, rfl, ?_, ?_⟩
      · have hcd := hd c (by simp)
        simp only [List.head?_cons, ne_eq, Option.some.injEq] at hhead
        simp only [isDigit, Bool.and_eq_true, decide_eq_true_eq] at hcd
        simp only [isNonZeroDigit, Bool.and_eq_true, decide_eq_true_eq]
        omega
      · refine (matchRep_iff _ _ _ _ _).mpr ⟨r, [], by simp, fun x hx => hd x (by simp [hx]),
          Nat.zero_le _, ?_, rfl⟩
        intro m hm
        simp only [Option.some.injEq] at hm
        simp only [List.length_cons] at h16
        omega

theorem digit_not_whiteSpace (c : Nat) (h : isDigit c = true) : isWhiteSpace c = false := by
  simp only [isDigit, isWhiteSpace, isLineTerminator, Bool.or_eq_true, Bool.and_eq_true,
    decide_eq_true_eq, beq_iff_eq, Bool.or_eq_false_iff, Bool.and_eq_false_iff,
    decide_eq_false_iff_not, beq_eq_false_iff_ne] at *
  omega

/-- What `isValidPhone` decides, on any string. -/
theorem isValidPhone_iff (s : JSString) :
    isValidPhone s = true ↔
      1 ≤ (stripNonDigits s).length ∧ (stripNonDigits s).length ≤ 16 ∧
        (stripNonDigits s).head? ≠ some 48 := by
  have hd : ∀ c ∈ stripNonDigits s, isDigit c = true := by
    intro c hc
    exact (List.mem_filter.mp hc).2
  unfold isValidPhone
  by_cases he : isEmptyValue (.str s) = true
  · simp only [he, if_true, Bool.false_eq_true, false_iff]
    rintro ⟨h1, -, -⟩
    cases hds : stripNonDigits s with
    | nil => rw [hds] at h1; simp at h1
    | cons c r =>
      have hc : c ∈ stripNonDigits s := by rw [hds]; simp
      have hmem := (List.mem_filter.mp hc)
      have := (isEmptyValue_str s).mp he c hmem.1
      rw [digit_not_whiteSpace c hmem.2] at this
      exact Bool.false_ne_true this
  · simp only [he, if_false, Bool.false_eq_true]
    exact phoneRegex_test_digits _ hd

/-! ## Lemmas on the display state -/

theorem mem_classAdd (p q : List Nat) (l : List (List Nat)) :
    q ∈ classAdd p l ↔ q = p ∨ q ∈ l := by
  unfold classAdd
  by_cases h : p ∈ l
  · simp only [h, if_true]
    constructor
    · exact Or.inr
    · rintro (rfl | h2)
      · exact h
      · exact h2
  · simp [h]

theorem mem_classRemove (p q : List Nat) (l : List (List Nat)) :
    q ∈ classRemove p l ↔ q ∈ l ∧ q ≠ p := by
  simp [classRemove]

theorem mem_classAdd_self (p : List Nat) (l : List (List Nat)) : p ∈ classAdd p l :=
  (mem_classAdd p p l).mpr (Or.inl rfl)

theorem not_mem_classRemove_self (p : List Nat) (l : List (List Nat)) : p ∉ classRemove p l :=
  fun h => ((mem_classRemove p p l).mp h).2 rfl

theorem mem_classAdd_of_ne (p q : List Nat) (l : List (List Nat)) (h : q ≠ p) :
    q ∈ classAdd p l ↔ q ∈ l := by
  rw [mem_classAdd]
  exact ⟨fun h2 => h2.resolve_left h, Or.inr⟩

theorem mem_classRemove_of_ne (p q : List Nat) (l : List (List Nat)) (h : q ≠ p) :
    q ∈ classRemove p l ↔ q ∈ l := by
  rw [mem_classRemove]
  exact ⟨fun h2 => h2.1, fun h2 => ⟨h2, h⟩⟩

theorem isInside_append_singleton (parent : List Nat) (k : Nat) :
    isInside parent (parent ++ [k]) = true := by
  simp [isInside, List.isPrefixOf_iff_prefix]

theorem addFieldError_invalid (F : Form) (f : Field) (m : String) (d : View) :
    (addFieldError F f m d).invalid = classAdd f.path d.invalid := by
  unfold addFieldError
  simp only
  split <;> split <;> rfl

theorem addFieldError_valid (F : Form) (f : Field) (m : String) (d : View) :
    (addFieldError F f m d).valid = classRemove f.path d.valid := by
  unfold addFieldError
  simp only
  split <;> split <;> rfl

theorem addFieldError_alerts (F : Form) (f : Field) (m : String) (d : View) :
    (addFieldError F f m d).alerts = d.alerts := by
  unfold addFieldError
  simp only
  split <;> split <;> rfl

/-- The first feedback element inside a parent, once its text is set. -/
theorem find_setFirstFeedback (parent : List Nat) (m : String) (fbs : List Feedback)
    (fb : Feedback) (h : querySelectorFeedback parent fbs = some fb) :
    querySelectorFeedback parent (setFirstFeedback parent m fbs) = some { fb with text := m } := by
  induction fbs with
  | nil => simp [querySelectorFeedback] at h
  | cons x rest ih =>
    unfold querySelectorFeedback at h ih ⊢
    by_cases hx : isInside parent x.pos = true
    · simp only [List.find?_cons, hx] at h
      simp only [Option.some.injEq] at h
      subst h
      simp [setFirstFeedback, hx, List.find?_cons]
    · simp only [Bool.not_eq_true] at hx
      simp only [List.find?_cons, hx] at h
      simp only [setFirstFeedback, hx, Bool.false_eq_true, if_false, List.find?_cons]
      exact ih h

/-- A feedback element appended to a parent that holds none is the one the
parent then finds. -/
theorem find_appendFeedback (F : Form) (parent : List Nat) (m : String) (fbs : List Feedback)
    (h : querySelectorFeedback parent fbs = none) :
    (querySelectorFeedback parent (appendFeedback F parent m fbs)).map (fun fb => fb.text)
      = some m := by
  unfold querySelectorFeedback at h ⊢
  unfold appendFeedback
  simp only
  rw [List.find?_eq_none] at h
  rw [List.find?_append]
  have h1 : List.find? (fun fb => isInside parent fb.pos)
      (List.takeWhile (fun x => docBefore x.pos (parent ++ [nextChildIndex F fbs parent])) fbs)
      = none := by
    rw [List.find?_eq_none]
    intro x hx
    exact h x ((List.takeWhile_sublist _).subset hx)
  rw [h1]
  simp [List.find?_cons, isInside_append_singleton]

/-- After `addFieldError` the message is the one displayed for the field. -/
theorem addFieldError_shownError (F : Form) (f : Field) (m : String) (d : View) :
    (addFieldError F f m d).shownError f = some m := by
  have key : ∀ d2 : View, d2.feedback = (
      match querySelectorFeedback f.parentNode d.feedback with
      | some _ => setFirstFeedback f.parentNode m d.feedback
      | none => appendFeedback F f.parentNode m d.feedback) → d2.shownError f = some m := by
    intro d2 hd2
    unfold View.shownError
    rw [hd2]
    cases hq : querySelectorFeedback f.parentNode d.feedback with
    | none => exact find_appendFeedback F _ m _ hq
    | some fb => simp [find_setFirstFeedback _ m _ fb hq]
  apply key
  unfold addFieldError
  simp only
  split <;> split <;> simp_all

/-! ## Lemmas on validateField -/

/-- Every path through `validateField` clears the old error and then either
adds an error and returns false, or marks the field valid and returns true. -/
theorem validateField_cases (F : Form) (f : Field) (d : View) :
    (∃ m, validateField F f d = (addFieldError F f m (clearFieldError f d), false)) ∨
      validateField F f d = (markFieldAsValid f (clearFieldError f d), true) := by
  unfold validateField
  simp only
  split_ifs
  · exact Or.inl ⟨_, rfl⟩
  · exact Or.inr rfl
  · exact Or.inl ⟨_, rfl⟩
  · exact Or.inl ⟨_, rfl⟩
  · exact Or.inl ⟨_, rfl⟩
  · split
    · split_ifs
      · exact Or.inl ⟨_, rfl⟩
      · exact Or.inr rfl
    · exact Or.inr rfl
  · exact Or.inl ⟨_, rfl⟩
  · exact Or.inr rfl

/-- The flag `validateField` returns does not depend on the display state. -/
theorem validateField_snd (F : Form) (f : Field) (d d2 : View) :
    (validateField F f d).2 = (validateField F f d2).2 := by
  unfold validateField
  simp only
  split_ifs
  · rfl
  · rfl
  · rfl
  · rfl
  · rfl
  · split
    · split_ifs <;> rfl
    · rfl
  · rfl
  · rfl

theorem clearFieldError_invalid (f : Field) (d : View) :
    (clearFieldError f d).invalid = classRemove f.path d.invalid := rfl

theorem clearFieldError_valid (f : Field) (d : View) : (clearFieldError f d).valid = d.valid := rfl

theorem clearFieldError_alerts (f : Field) (d : View) :
    (clearFieldError f d).alerts = d.alerts := rfl

theorem markFieldAsValid_invalid (f : Field) (d : View) :
    (markFieldAsValid f d).invalid = classRemove f.path (classRemove f.path d.invalid) := rfl

theorem markFieldAsValid_valid (f : Field) (d : View) :
    (markFieldAsValid f d).valid = classAdd f.path d.valid := rfl

theorem markFieldAsValid_alerts (f : Field) (d : View) :
    (markFieldAsValid f d).alerts = d.alerts := rfl

/-- After a run of `validateField` the field carries `is-invalid` exactly when
the run failed, and `is-valid` exactly when it passed. -/
theorem validateField_classes (F : Form) (f : Field) (d : View) :
    (validateField F f d).1.isInvalid f = !(validateField F f d).2 ∧
      (validateField F f d).1.isValid f = (validateField F f d).2 := by
  rcases validateField_cases F f d with ⟨m, h⟩ | h
  · rw [h]
    simp only [View.isInvalid, View.isValid, addFieldError_invalid, addFieldError_valid,
      Bool.not_false, decide_eq_true_eq, decide_eq_false_iff_not]
    exact ⟨mem_classAdd_self _ _, not_mem_classRemove_self _ _⟩
  · rw [h]
    simp only [View.isInvalid, View.isValid, markFieldAsValid_invalid, markFieldAsValid_valid,
      Bool.not_true, decide_eq_true_eq, decide_eq_false_iff_not]
    exact ⟨not_mem_classRemove_self _ _, mem_classAdd_self _ _⟩

/-- A run of `validateField` leaves the classes of every other control alone. -/
theorem validateField_other (F : Form) (f g : Field) (d : View) (h : g.path ≠ f.path) :
    (validateField F f d).1.isInvalid g = d.isInvalid g ∧
      (validateField F f d).1.isValid g = d.isValid g := by
  rcases validateField_cases F f d with ⟨m, hv⟩ | hv
  · rw [hv]
    simp only [View.isInvalid, View.isValid, addFieldError_invalid, addFieldError_valid,
      clearFieldError_invalid, clearFieldError_valid, decide_eq_decide]
    exact ⟨by rw [mem_classAdd_of_ne _ _ _ h, mem_classRemove_of_ne _ _ _ h],
      mem_classRemove_of_ne _ _ _ h⟩
  · rw [hv]
    simp only [View.isInvalid, View.isValid, markFieldAsValid_invalid, markFieldAsValid_valid,
      clearFieldError_invalid, clearFieldError_valid, decide_eq_decide]
    exact ⟨by rw [mem_classRemove_of_ne _ _ _ h, mem_classRemove_of_ne _ _ _ h,
        mem_classRemove_of_ne _ _ _ h],
      mem_classAdd_of_ne _ _ _ h⟩

/-- A failing run of `validateField` displays a message for the field. -/
theorem validateField_shownError_of_false (F : Form) (f : Field) (d : View)
    (h : (validateField F f d).2 = false) :
    ∃ m, (validateField F f d).1.shownError f = some m := by
  rcases validateField_cases F f d with ⟨m, hv⟩ | hv
  · exact ⟨m, by rw [hv]; exact addFieldError_shownError _ _ _ _⟩
  · rw [hv] at h
    exact absurd h (by simp)

/-! ## Lemmas on validateForm -/

/-- The flag after the loop: the flag before it, and every field passing. -/
theorem validateFields_snd (F : Form) (l : List Field) :
    ∀ (d : View) (b : Bool),
      (validateFields F l (d, b)).2 = (b && l.all (fun f => (validateField F f View.initial).2)) := by
  induction l with
  | nil => intro d b; simp [validateFields]
  | cons f rest ih =>
    intro d b
    simp only [validateFields, List.all_cons]
    rw [ih, validateField_snd F f d View.initial]
    cases (validateField F f View.initial).2 <;> cases b <;> simp

/-- The loop leaves the classes of a control alone when no field of the loop
sits at its place. -/
theorem validateFields_other (F : Form) (g : Field) (l : List Field) :
    ∀ (d : View) (b : Bool), (∀ f ∈ l, g.path ≠ f.path) →
      (validateFields F l (d, b)).1.isInvalid g = d.isInvalid g ∧
        (validateFields F l (d, b)).1.isValid g = d.isValid g := by
  induction l with
  | nil => intro d b _; simp [validateFields]
  | cons f rest ih =>
    intro d b h
    simp only [validateFields]
    have h1 := ih (validateField F f d).1 (if !(validateField F f d).2 then false else b)
      (fun x hx => h x (List.mem_cons_of_mem _ hx))
    have h2 := validateField_other F f g d (h f (List.mem_cons_self _ _))
    exact ⟨h1.1.trans h2.1, h1.2.trans h2.2⟩

/-- After the loop every field of it carries the class its own run gave it,
provided no two controls sit at one place. -/
theorem validateFields_classes (F : Form) (g : Field) (l : List Field) :
    ∀ (d : View) (b : Bool), g ∈ l → (∀ f ∈ l, f.path = g.path → f = g) →
      (validateFields F l (d, b)).1.isInvalid g = !(validateField F g View.initial).2 ∧
        (validateFields F l (d, b)).1.isValid g = (validateField F g View.initial).2 := by
  induction l with
  | nil => intro d b h; simp at h
  | cons f rest ih =>
    intro d b hg hd
    simp only [validateFields]
    by_cases hr : g ∈ rest
    · exact ih _ _ hr (fun x hx => hd x (List.mem_cons_of_mem _ hx))
    · have hfg : g = f := by
        rcases List.mem_cons.mp hg with h | h
        · exact h
        · exact absurd h hr
      subst hfg
      have h1 := validateFields_other F g rest (validateField F g d).1
        (if !(validateField F g d).2 then false else b)
        (fun x hx hp => hr ((hd x (List.mem_cons_of_mem _ hx) hp.symm) ▸ hx))
      have h2 := validateField_classes F g d
      rw [validateField_snd F g d View.initial] at h2
      exact ⟨h1.1.trans h2.1, h1.2.trans h2.2⟩

theorem validateFields_alerts (F : Form) (l : List Field) :
    ∀ (d : View) (b : Bool), (validateFields F l (d, b)).1.alerts = d.alerts := by
  induction l with
  | nil => intro d b; rfl
  | cons f rest ih =>
    intro d b
    simp only [validateFields]
    rw [ih]
    rcases validateField_cases F f d with ⟨m, hv⟩ | hv
    · rw [hv, addFieldError_alerts, clearFieldError_alerts]
    · rw [hv, markFieldAsValid_alerts, clearFieldError_alerts]

/-- The flag `validateForm` returns: every field passes, the terms check and
the speed check let the form through. -/
theorem validateForm_snd (F : Form) (now : Int) (d : View) :
    (validateForm F now d).2 =
      (F.all (fun f => (validateField F f View.initial).2) && termsChecked F
        && slowEnough F now) := by
  have hs := validateFields_snd F F d true
  unfold validateForm termsChecked slowEnough
  generalize validateFields F F (d, true) = r at hs ⊢
  obtain ⟨d1, b1⟩ := r
  simp only [Bool.true_and] at hs
  subst hs
  simp only
  cases querySelectorId F "terms" with
  | none =>
    cases querySelectorTimestamp F with
    | none => simp
    | some ts =>
      dsimp only
      cases parseInt ts.value with
      | none => simp
      | some t => by_cases hlt : now - t < 2000 <;> simp [hlt]
  | some tc =>
    cases hc : tc.checked <;>
    cases querySelectorTimestamp F with
    | none => simp [hc]
    | some ts =>
      dsimp only
      cases parseInt ts.value with
      | none => simp [hc]
      | some t => by_cases hlt : now - t < 2000 <;> simp [hlt, hc]

/-- The alerts after `validateForm`. -/
theorem validateForm_alerts_of_fast (F : Form) (now : Int) (d : View) (ts : Field) (t : Int)
    (hts : querySelectorTimestamp F = some ts) (hp : parseInt ts.value = some t)
    (hlt : now - t < 2000) :
    (validateForm F now d).1.alerts.head? =
      some "Form submitted too quickly. Please try again." := by
  unfold validateForm
  generalize validateFields F F (d, true) = r
  obtain ⟨d1, b1⟩ := r
  simp only [hts, hp, hlt, if_true]
  cases querySelectorId F "terms" with
  | none => simp [showGeneralError]
  | some tc => cases hc : tc.checked <;> simp [showGeneralError]

/-! ## Lemmas for the claims on forms -/

theorem validateField_website (F : Form) (f : Field) (d : View) (hname : f.name = "website")
    (hval : isEmptyValue (getFieldValue f) = false) : (validateField F f d).2 = false := by
  unfold validateField
  simp only [hval, hname]
  split_ifs <;> first | rfl | simp_all

/-- One failing field makes `validateForm` return false. -/
theorem validateForm_false_of_field (F : Form) (now : Int) (d : View) (f : Field) (hf : f ∈ F)
    (h : (validateField F f View.initial).2 = false) : (validateForm F now d).2 = false := by
  rw [validateForm_snd]
  have : F.all (fun f => (validateField F f View.initial).2) = false := by
    rw [Bool.eq_false_iff]
    intro hall
    rw [List.all_eq_true] at hall
    rw [hall f hf] at h
    exact absurd h (by decide)
  rw [this]
  rfl

theorem addFieldError_keeps (F : Form) (f g : Field) (m : String) (d : View)
    (h : d.isInvalid g = true ∧ d.isValid g = false) :
    (addFieldError F f m d).isInvalid g = true ∧ (addFieldError F f m d).isValid g = false := by
  simp only [View.isInvalid, View.isValid, decide_eq_true_eq, decide_eq_false_iff_not,
    addFieldError_invalid, addFieldError_valid] at h ⊢
  exact ⟨(mem_classAdd _ _ _).mpr (Or.inr h.1), fun h2 => h.2 ((mem_classRemove _ _ _).mp h2).1⟩

/-- After `validateForm` every field whose run failed carries `is-invalid` and
not `is-valid`, provided no two controls sit at one place. -/
theorem validateForm_marks (F : Form) (now : Int) (d : View) (g : Field) (hg : g ∈ F)
    (hd : distinctPaths F) (h : (validateField F g View.initial).2 = false) :
    (validateForm F now d).1.isInvalid g = true ∧ (validateForm F now d).1.isValid g = false := by
  have hc := validateFields_classes F g F d true hg (fun f hf hp => hd f hf g hg hp)
  rw [h] at hc
  unfold validateForm
  generalize validateFields F F (d, true) = r at hc ⊢
  obtain ⟨d1, b1⟩ := r
  simp only [Bool.not_false] at hc
  simp only
  cases querySelectorId F "terms" with
  | none =>
    cases querySelectorTimestamp F with
    | none => exact hc
    | some ts =>
      dsimp only
      cases parseInt ts.value with
      | none => exact hc
      | some t => by_cases hlt : now - t < 2000 <;> simp only [hlt, if_true, if_false] <;> exact hc
  | some tc =>
    have hk := addFieldError_keeps F tc g "You must agree to the terms and conditions" d1 hc
    dsimp only
    cases hch : tc.checked with
    | false =>
      simp only [Bool.not_false, if_true]
      cases querySelectorTimestamp F with
      | none => exact hk
      | some ts =>
        dsimp only
        cases parseInt ts.value with
        | none => exact hk
        | some t =>
          by_cases hlt : now - t < 2000 <;> simp only [hlt, if_true, if_false] <;> exact hk
    | true =>
      simp only [Bool.not_true, Bool.false_eq_true, if_false]
      cases querySelectorTimestamp F with
      | none => exact hc
      | some ts =>
        dsimp only
        cases parseInt ts.value with
        | none => exact hc
        | some t =>
          by_cases hlt : now - t < 2000 <;> simp only [hlt, if_true, if_false] <;> exact hc

/-! ## Lemmas on the confirmPassword rule -/

/-- A non-empty value that the type case rejects makes `validateField` fail. -/
theorem validateField_typeCheck_fails (F : Form) (c : Field) (d : View)
    (hne : isEmptyValue (getFieldValue c) = false) (ht : typeCheckPasses c = false) :
    (validateField F c d).2 = false := by
  unfold typeCheckPasses at ht
  unfold validateField
  simp only [hne]
  split_ifs <;> first | rfl | simp_all

/-- What `validateField` does on a non-empty field named confirmPassword that
passes its type case, when the form has a `#password`. -/
theorem validateField_confirm (F : Form) (p c : Field) (d : View)
    (hp : querySelectorId F "password" = some p) (hname : c.name = "confirmPassword")
    (hne : isEmptyValue (getFieldValue c) = false) (ht : typeCheckPasses c = true) :
    validateField F c d =
      if getFieldValue c != getFieldValue p then
        (addFieldError F c "Passwords do not match" (clearFieldError c d), false)
      else (markFieldAsValid c (clearFieldError c d), true) := by
  unfold typeCheckPasses at ht
  simp only [Bool.and_eq_true, Bool.not_eq_true', Bool.and_eq_false_iff, beq_eq_false_iff_ne,
    Bool.not_eq_false'] at ht
  unfold validateField
  simp only [hne, hname, hp, Bool.and_false, Bool.false_eq_true, if_false, beq_self_eq_true,
    if_true]
  obtain ⟨⟨h1, h2⟩, h3⟩ := ht
  have e1 : (c.type == "email" && !isValidEmail (getFieldValue c).text) = false := by
    rcases h1 with h | h
    · simp [h]
    · simp [h]
  have e2 : (c.type == "tel" && !isValidPhone (getFieldValue c).text) = false := by
    rcases h2 with h | h
    · simp [h]
    · simp [h]
  have e3 : (c.type == "password" && !isValidPassword (getFieldValue c).text) = false := by
    rcases h3 with h | h
    · simp [h]
    · simp [h]
  simp only [e1, e2, e3, Bool.false_eq_true, if_false]

/-! # The claims -/

/-! ## C1: isValidPassword -/

/-- C1, as stated, fails: the string `abcd`, U+2028, `1234` has nine code
units, a letter and a digit, and `isValidPassword` rejects it, because `.`
does not match a line terminator. -/
theorem isValidPassword_rejects_line_separator :
    8 ≤ ([97, 98, 99, 100, 8232, 49, 50, 51, 52] : JSString).length ∧
      (∃ c ∈ ([97, 98, 99, 100, 8232, 49, 50, 51, 52] : JSString), isAsciiLetter c = true) ∧
      (∃ c ∈ ([97, 98, 99, 100, 8232, 49, 50, 51, 52] : JSString), isDigit c = true) ∧
      isValidPassword [97, 98, 99, 100, 8232, 49, 50, 51, 52] = false := by
  decide

/-- C1 (amended): isValidPassword accepts every string of at least 8 code
units that holds no line terminator (LF, CR, U+2028, U+2029) and contains at
least one letter A-Z or a-z and at least one digit 0-9, and it rejects
"short1" and "alllettersnodigit". -/
theorem isValidPassword_accepts (s : JSString) (hlen : 8 ≤ s.length)
    (hline : ∀ c ∈ s, isLineTerminator c = false)
    (hletter : ∃ c ∈ s, isAsciiLetter c = true) (hdigit : ∃ c ∈ s, isDigit c = true) :
    isValidPassword s = true ∧ isValidPassword (js "short1") = false ∧
      isValidPassword (js "alllettersnodigit") = false :=
  ⟨(isValidPassword_iff s).mpr ⟨hlen, hline, hletter, hdigit⟩, by decide, by decide⟩

/-- C1 at the password "Abcdef12". -/
theorem isValidPassword_accepts_witness :
    isValidPassword (js "Abcdef12") = true ∧ isValidPassword (js "short1") = false ∧
      isValidPassword (js "alllettersnodigit") = false :=
  isValidPassword_accepts (js "Abcdef12") (by decide) (by decide) (by decide) (by decide)

/-! ## C2: isValidEmail -/

/-- C2: isValidEmail returns true for every string that matches the email
pattern; the pattern matches exactly the strings with one `@`, no whitespace
and a decomposition local `@` a `.` b with all three parts non-empty; and
isValidEmail returns false for every string with no `@` and for every string
with an `@` that no `.` follows. -/
theorem isValidEmail_spec (s : JSString) :
    (emailRegex.test s = true → isValidEmail s = true) ∧
      (emailRegex.test s = true ↔
        s.count 64 = 1 ∧ (∀ c ∈ s, isWhiteSpace c = false) ∧
          ∃ l a b, s = l ++ 64 :: (a ++ 46 :: b) ∧ l ≠ [] ∧ a ≠ [] ∧ b ≠ []) ∧
      (64 ∉ s → isValidEmail s = false) ∧
      (∀ l r, s = l ++ 64 :: r → 46 ∉ r → isValidEmail s = false) := by
  refine ⟨fun h => by rw [isValidEmail_eq_test, h], emailRegex_test_iff s, ?_, ?_⟩
  · intro h
    rw [isValidEmail_eq_test]
    cases ht : emailRegex.test s with
    | false => rfl
    | true =>
      obtain ⟨hc, -, -⟩ := (emailRegex_test_iff s).mp ht
      rw [List.count_eq_zero_of_not_mem h] at hc
      exact absurd hc (by decide)
  · intro l r hs hr
    rw [isValidEmail_eq_test]
    cases ht : emailRegex.test s with
    | false => rfl
    | true =>
      rw [hs] at ht
      exact absurd (dot_after_at_of_test l r ht) hr

/-- C2 on concrete addresses: "user@example.com" passes, "userexample.com"
(no `@`) and "user@examplecom" (no `.` after the `@`) fail. -/
theorem isValidEmail_spec_witness :
    isValidEmail (js "user@example.com") = true ∧
      isValidEmail (js "userexample.com") = false ∧
      isValidEmail (js "user@examplecom") = false :=
  ⟨(isValidEmail_spec (js "user@example.com")).1 (by decide),
   (isValidEmail_spec (js "userexample.com")).2.2.1 (by decide),
   (isValidEmail_spec (js "user@examplecom")).2.2.2 (js "user") (js "examplecom")
     (by decide) (by decide)⟩

/-! ## C3: isValidPhone -/

/-- C3: isValidPhone(s) is true exactly when the digits of s, in order, are
between 1 and 16 in number and the first of them is not 0; so every string of
1 to 16 digits that does not start with 0 passes, with or without a `+` in
front. -/
theorem isValidPhone_spec (s : JSString) :
    (isValidPhone s = true ↔
        1 ≤ (s.filter isDigit).length ∧ (s.filter isDigit).length ≤ 16 ∧
          (s.filter isDigit).head? ≠ some 48) ∧
      ((∀ c ∈ s, isDigit c = true) → 1 ≤ s.length → s.length ≤ 16 → s.head? ≠ some 48 →
        isValidPhone s = true ∧ isValidPhone (43 :: s) = true) := by
  refine ⟨isValidPhone_iff s, ?_⟩
  intro hd h1 h16 hh
  have hf : s.filter isDigit = s := List.filter_eq_self.mpr hd
  have hf2 : (43 :: s).filter isDigit = s := by
    rw [List.filter_cons_of_neg (by decide), hf]
  refine ⟨(isValidPhone_iff s).mpr ?_, (isValidPhone_iff (43 :: s)).mpr ?_⟩
  · simp only [stripNonDigits, hf]
    exact ⟨h1, h16, hh⟩
  · simp only [stripNonDigits, hf2]
    exact ⟨h1, h16, hh⟩

/-- C3 on the sixteen digits "1234567890123456", bare and behind a `+`. -/
theorem isValidPhone_spec_witness :
    isValidPhone (js "1234567890123456") = true ∧
      isValidPhone (js "+1234567890123456") = true :=
  (isValidPhone_spec (js "1234567890123456")).2 (by decide) (by decide) (by decide) (by decide)

/-! ## C4: the honeypot -/

/-- C4: when a field of the form named "website" holds a non-empty value,
validateForm returns false, whatever the other fields, the terms checkbox,
the time and the display state are.  Non-empty is what `isEmptyValue` denies of
`getFieldValue(field)`: the trimmed value is not the empty string
(`isEmptyValue_trim`), or the checkbox is checked. -/
theorem validateForm_honeypot (F : Form) (now : Int) (d : View) (f : Field) (hf : f ∈ F)
    (hname : f.name = "website") (hval : isEmptyValue (getFieldValue f) = false) :
    (validateForm F now d).2 = false :=
  validateForm_false_of_field F now d f hf (validateField_website F f _ hname hval)

/-- C4 on a registration form that is valid but for the honeypot, which holds
"x". -/
theorem validateForm_honeypot_witness :
    (validateForm (registrationForm "Abcdef12" "Abcdef12" "x" true "1000") 5000
      View.initial).2 = false :=
  validateForm_honeypot _ 5000 View.initial (honeypot 5 "x") (by decide) (by decide) (by decide)

/-! ## C5: the speed check -/

/-- C5: when the timestamp field holds the time t and now - t < 2000,
validateForm returns false and the general error 'Form submitted too quickly.
Please try again.' is the first alert of the form, whatever the fields and
the terms checkbox are. -/
theorem validateForm_too_quickly (F : Form) (now : Int) (d : View) (ts : Field) (t : Int)
    (hts : querySelectorTimestamp F = some ts) (hp : parseInt ts.value = some t)
    (hlt : now - t < 2000) :
    (validateForm F now d).2 = false ∧
      (validateForm F now d).1.alerts.head? =
        some "Form submitted too quickly. Please try again." := by
  refine ⟨?_, validateForm_alerts_of_fast F now d ts t hts hp hlt⟩
  rw [validateForm_snd]
  have : slowEnough F now = false := by
    simp [slowEnough, hts, hp, hlt]
  rw [this, Bool.and_false]

/-- C5 on a registration form in which every field passes and the terms are
checked, submitted 1999 ms after the timestamp 1000. -/
theorem validateForm_too_quickly_witness :
    (∀ f ∈ registrationForm "Abcdef12" "Abcdef12" "" true "1000",
        (validateField (registrationForm "Abcdef12" "Abcdef12" "" true "1000") f
          View.initial).2 = true) ∧
      termsChecked (registrationForm "Abcdef12" "Abcdef12" "" true "1000") = true ∧
      (validateForm (registrationForm "Abcdef12" "Abcdef12" "" true "1000") 2999
        View.initial).2 = false ∧
      (validateForm (registrationForm "Abcdef12" "Abcdef12" "" true "1000") 2999
        View.initial).1.alerts.head? = some "Form submitted too quickly. Please try again." :=
  ⟨by decide, by decide,
    validateForm_too_quickly _ 2999 View.initial (timestampField 6 "1000") 1000 (by decide)
      (by decide) (by decide)⟩

/-! ## C6: password and confirmation -/

/-- C6, as stated, fails: "Abcdef12" in `#password` and "Abcdef12 " (with a
space at the end) in confirmPassword are non-empty values that differ, and
validateField on confirmPassword returns true, because getFieldValue trims. -/
theorem validateField_confirmPassword_trims :
    (wrapped 2 "password" "password" true "Abcdef12").value ≠ [] ∧
      (wrapped 3 "password" "confirmPassword" true "Abcdef12 ").value ≠ [] ∧
      (wrapped 2 "password" "password" true "Abcdef12").value
        ≠ (wrapped 3 "password" "confirmPassword" true "Abcdef12 ").value ∧
      (validateField (registrationForm "Abcdef12" "Abcdef12 " "" true "1000")
        (wrapped 3 "password" "confirmPassword" true "Abcdef12 ") View.initial).2 = true := by
  decide

/-- C6 (amended): in a form whose `#password` is p and with a field c named
confirmPassword: (a) when p holds "Abcdef12" and c, not of type email,
checkbox or radio, holds "Abcdef13", validateForm returns false, c carries
`is-invalid` and not `is-valid` afterwards, and the run of validateField on c
fails with 'Passwords do not match', displayed when that run returns; (b)
validateField on c returns false whenever the two values, as getFieldValue
reads them (trimmed), are non-empty and differ; (c) when these two values are
equal, the cross-field check passes: validateField returns true on a
non-empty c that passes its type case, and validatePasswordMatch returns
true. -/
theorem validateField_confirmPassword (F : Form) (now : Int) (d : View) (p c : Field)
    (hp : querySelectorId F "password" = some p) (hname : c.name = "confirmPassword")
    (hc : c ∈ F) (hdist : distinctPaths F) :
    (p.value = js "Abcdef12" → c.value = js "Abcdef13" →
        c.type ≠ "email" → c.type ≠ "checkbox" → c.type ≠ "radio" →
        (validateForm F now d).2 = false ∧
          (validateForm F now d).1.isInvalid c = true ∧
          (validateForm F now d).1.isValid c = false ∧
          (validateField F c d).2 = false ∧
          (validateField F c d).1.shownError c = some "Passwords do not match") ∧
      (isEmptyValue (getFieldValue c) = false → isEmptyValue (getFieldValue p) = false →
        getFieldValue c ≠ getFieldValue p → (validateField F c d).2 = false) ∧
      (getFieldValue c = getFieldValue p → isEmptyValue (getFieldValue c) = false →
        typeCheckPasses c = true →
        (validateField F c d).2 = true ∧ (validatePasswordMatch F p c d).2 = true) := by
  refine ⟨?_, ?_, ?_⟩
  · intro hpv hcv he hcb hr
    have hgc : getFieldValue c = .str (js "Abcdef13") := by
      have h1 : (c.type == "checkbox") = false := by simpa using hcb
      have h2 : (c.type == "radio") = false := by simpa using hr
      unfold getFieldValue
      rw [hcv, h1, h2]
      have h3 : trim (js "Abcdef13") = js "Abcdef13" := by decide
      simp only [Bool.or_self, Bool.false_eq_true, if_false, h3]
    have hne : isEmptyValue (getFieldValue c) = false := by rw [hgc]; decide
    have ht : typeCheckPasses c = true := by
      unfold typeCheckPasses
      rw [hgc]
      have h1 : isValidPhone (Value.str (js "Abcdef13")).text = true := by decide
      have h2 : isValidPassword (Value.str (js "Abcdef13")).text = true := by decide
      simp [h1, h2, he]
    have hdiff : (getFieldValue c != getFieldValue p) = true := by
      rw [hgc]
      unfold getFieldValue
      rw [hpv]
      split_ifs
      · rfl
      · decide
    have hv : ∀ d2, validateField F c d2
        = (addFieldError F c "Passwords do not match" (clearFieldError c d2), false) := by
      intro d2
      rw [validateField_confirm F p c d2 hp hname hne ht, hdiff]
      rfl
    have hm := validateForm_marks F now d c hc hdist (by rw [hv])
    refine ⟨validateForm_false_of_field F now d c hc (by rw [hv]), hm.1, hm.2, by rw [hv], ?_⟩
    rw [hv]
    exact addFieldError_shownError _ _ _ _
  · intro hne _ hdiff
    cases ht : typeCheckPasses c with
    | false => exact validateField_typeCheck_fails F c d hne ht
    | true =>
      rw [validateField_confirm F p c d hp hname hne ht]
      have : (getFieldValue c != getFieldValue p) = true := by simpa using hdiff
      rw [this]
      rfl
  · intro heq hne ht
    constructor
    · rw [validateField_confirm F p c d hp hname hne ht]
      have : (getFieldValue c != getFieldValue p) = false := by simp [heq]
      rw [this]
      rfl
    · unfold validatePasswordMatch
      have : (getFieldValue p != getFieldValue c) = false := by simp [heq]
      simp [this]

/-- C6 on the registration form with "Abcdef12" and "Abcdef13": the form is
invalid and the confirmation reports the mismatch; with "Abcdef12" twice the
confirmation passes. -/
theorem validateField_confirmPassword_witness :
    ((validateForm (registrationForm "Abcdef12" "Abcdef13" "" true "1000") 5000
          View.initial).2 = false ∧
        (validateForm (registrationForm "Abcdef12" "Abcdef13" "" true "1000") 5000
          View.initial).1.isInvalid (wrapped 3 "password" "confirmPassword" true "Abcdef13")
          = true ∧
        (validateForm (registrationForm "Abcdef12" "Abcdef13" "" true "1000") 5000
          View.initial).1.isValid (wrapped 3 "password" "confirmPassword" true "Abcdef13")
          = false ∧
        (validateField (registrationForm "Abcdef12" "Abcdef13" "" true "1000")
          (wrapped 3 "password" "confirmPassword" true "Abcdef13") View.initial).2 = false ∧
        (validateField (registrationForm "Abcdef12" "Abcdef13" "" true "1000")
          (wrapped 3 "password" "confirmPassword" true "Abcdef13") View.initial).1.shownError
          (wrapped 3 "password" "confirmPassword" true "Abcdef13")
          = some "Passwords do not match") ∧
      (validateField (registrationForm "Abcdef12" "Abcdef12" "" true "1000")
        (wrapped 3 "password" "confirmPassword" true "Abcdef12") View.initial).2 = true :=
  ⟨(validateField_confirmPassword (registrationForm "Abcdef12" "Abcdef13" "" true "1000") 5000
      View.initial (wrapped 2 "password" "password" true "Abcdef12")
      (wrapped 3 "password" "confirmPassword" true "Abcdef13")
      (by decide) (by decide) (by decide) (by decide)).1
      (by decide) (by decide) (by decide) (by decide) (by decide),
    ((validateField_confirmPassword (registrationForm "Abcdef12" "Abcdef12" "" true "1000") 5000
      View.initial (wrapped 2 "password" "password" true "Abcdef12")
      (wrapped 3 "password" "confirmPassword" true "Abcdef12")
      (by decide) (by decide) (by decide) (by decide)).2.2
      (by decide) (by decide) (by decide)).1⟩

/-! ## C7: validateField against validatePasswordMatch -/

/-- C7 fails on the code: with an empty `#password` and "Abcdef12" in
confirmPassword, validateField marks confirmPassword invalid with 'Passwords
do not match', while validatePasswordMatch on the same two fields returns
true and shows nothing. -/
theorem validateField_mismatch_on_empty_password :
    isEmptyValue (getFieldValue (wrapped 2 "password" "password" true "")) = true ∧
      isEmptyValue (getFieldValue (wrapped 3 "password" "confirmPassword" true "Abcdef12"))
        = false ∧
      (validateField (registrationForm "" "Abcdef12" "" true "1000")
        (wrapped 3 "password" "confirmPassword" true "Abcdef12") View.initial).2 = false ∧
      (validateField (registrationForm "" "Abcdef12" "" true "1000")
        (wrapped 3 "password" "confirmPassword" true "Abcdef12") View.initial).1.shownError
        (wrapped 3 "password" "confirmPassword" true "Abcdef12")
        = some "Passwords do not match" ∧
      validatePasswordMatch (registrationForm "" "Abcdef12" "" true "1000")
        (wrapped 2 "password" "password" true "")
        (wrapped 3 "password" "confirmPassword" true "Abcdef12") View.initial
        = (View.initial, true) := by
  decide

/-! ## C8: empty values -/

/-- C8: on an empty value validateField looks at the required attribute
alone, whatever the type and the name of the field.  A required field gets
the error 'This field is required' and false is returned, with nothing else
done; a field that is not required is marked valid and true is returned. -/
theorem validateField_empty (F : Form) (f : Field) (d : View)
    (he : isEmptyValue (getFieldValue f) = true) :
    (f.required = true →
        validateField F f d
            = (addFieldError F f "This field is required" (clearFieldError f d), false) ∧
          (validateField F f d).1.shownError f = some "This field is required" ∧
          (validateField F f d).1.isInvalid f = true ∧
          (validateField F f d).1.isValid f = false) ∧
      (f.required = false →
        validateField F f d = (markFieldAsValid f (clearFieldError f d), true) ∧
          (validateField F f d).1.isValid f = true ∧
          (validateField F f d).1.isInvalid f = false) := by
  have hcl := validateField_classes F f d
  constructor
  · intro hr
    have hv : validateField F f d
        = (addFieldError F f "This field is required" (clearFieldError f d), false) := by
      unfold validateField
      simp [he, hr]
    refine ⟨hv, ?_, ?_, ?_⟩
    · rw [hv]; exact addFieldError_shownError _ _ _ _
    · rw [hcl.1, hv]; rfl
    · rw [hcl.2, hv]
  · intro hr
    have hv : validateField F f d = (markFieldAsValid f (clearFieldError f d), true) := by
      unfold validateField
      simp [he, hr]
    refine ⟨hv, ?_, ?_⟩
    · rw [hcl.2, hv]
    · rw [hcl.1, hv]; rfl

/-- C8 on two empty fields: a required email field fails with 'This field is
required', and an optional password field named confirmPassword passes although
`#password` holds "Abcdef12". -/
theorem validateField_empty_witness :
    (validateField [wrapped 0 "email" "email" true "  "] (wrapped 0 "email" "email" true "  ")
        View.initial).1.shownError (wrapped 0 "email" "email" true "  ")
      = some "This field is required" ∧
    (validateField
        [wrapped 0 "password" "password" true "Abcdef12",
          wrapped 1 "password" "confirmPassword" false ""]
        (wrapped 1 "password" "confirmPassword" false "") View.initial).2 = true :=
  ⟨((validateField_empty _ (wrapped 0 "email" "email" true "  ") View.initial
      (by decide)).1 (by decide)).2.1,
    by
      rw [((validateField_empty
        [wrapped 0 "password" "password" true "Abcdef12",
          wrapped 1 "password" "confirmPassword" false ""]
        (wrapped 1 "password" "confirmPassword" false "") View.initial (by decide)).2
          (by decide)).1]⟩

/-! ## C9: validateForm -/

/-- C9: validateForm returns true exactly when validateField returns true
for every control of the form, `#terms` is absent or checked, and at least
2000 ms lie between the time the timestamp field holds and now (a timestamp
field that is absent or holds no number sets no time).  Every control is
validated: after validateForm each field whose validation fails carries
`is-invalid` and not `is-valid`. -/
theorem validateForm_spec (F : Form) (now : Int) (d : View) :
    ((validateForm F now d).2 = true ↔
        (∀ f ∈ F, ∀ d2, (validateField F f d2).2 = true) ∧
          (∀ tc, querySelectorId F "terms" = some tc → tc.checked = true) ∧
          (∀ ts t, querySelectorTimestamp F = some ts → parseInt ts.value = some t →
            2000 ≤ now - t)) ∧
      (distinctPaths F → ∀ f ∈ F, (validateField F f d).2 = false →
        (validateForm F now d).1.isInvalid f = true ∧
          (validateForm F now d).1.isValid f = false) := by
  constructor
  · rw [validateForm_snd, Bool.and_eq_true, Bool.and_eq_true, List.all_eq_true]
    rw [and_assoc]
    refine and_congr ?_ (and_congr ?_ ?_)
    · constructor
      · intro h f hf d2
        rw [validateField_snd F f d2 View.initial]
        exact h f hf
      · intro h f hf
        exact h f hf View.initial
    · unfold termsChecked
      cases querySelectorId F "terms" with
      | none => simp
      | some tc => simp
    · unfold slowEnough
      cases querySelectorTimestamp F with
      | none => simp
      | some ts =>
        dsimp only
        cases hp : parseInt ts.value with
        | none =>
          simp only [true_iff]
          intro ts2 t2 hts hp2
          rw [← Option.some.inj hts, hp] at hp2
          exact absurd hp2 (by simp)
        | some t =>
          simp only [Bool.not_eq_true', decide_eq_false_iff_not, not_lt]
          constructor
          · intro h ts2 t2 hts hp2
            rw [← Option.some.inj hts, hp] at hp2
            rw [← Option.some.inj hp2]
            exact h
          · intro h
            exact h ts t rfl hp
  · intro hd f hf h
    rw [validateField_snd F f d View.initial] at h
    exact validateForm_marks F now d f hf hd h

/-- C9 on two registration forms: a valid one submitted 4000 ms after the
timestamp passes; one with a mismatching confirmation fails, and the
confirmation field is marked. -/
theorem validateForm_spec_witness :
    (validateForm (registrationForm "Abcdef12" "Abcdef12" "" true "1000") 5000
        View.initial).2 = true ∧
      (validateForm (registrationForm "Abcdef12" "Abcdef13" "" true "1000") 5000
        View.initial).1.isInvalid (wrapped 3 "password" "confirmPassword" true "Abcdef13")
        = true :=
  ⟨(validateForm_spec (registrationForm "Abcdef12" "Abcdef12" "" true "1000") 5000
      View.initial).1.mpr
      ⟨fun f hf d2 => by
          rw [validateField_snd _ f d2 View.initial]
          revert f
          decide,
        fun tc h => by
          have h2 : querySelectorId (registrationForm "Abcdef12" "Abcdef12" "" true "1000")
              "terms" = some (termsBox 4 true) := by decide
          rw [h2] at h
          rw [← Option.some.inj h]
          rfl,
        fun ts t h hp => by
          have h2 : querySelectorTimestamp (registrationForm "Abcdef12" "Abcdef12" "" true "1000")
              = some (timestampField 6 "1000") := by decide
          rw [h2] at h
          rw [← Option.some.inj h] at hp
          have h3 : parseInt (timestampField 6 "1000").value = some 1000 := by decide
          rw [h3] at hp
          rw [← Option.some.inj hp]
          decide⟩,
    ((validateForm_spec (registrationForm "Abcdef12" "Abcdef13" "" true "1000") 5000
      View.initial).2 (by decide) _ (by decide) (by decide)).1⟩

/-! ## C10: the displayed state -/

/-- C10 fails on the code.  In a form of two controls with one parent, the
first, required and empty, fails and shows 'This field is required'; a run of
validateField on the second, which passes, removes that message, and the first
is left with `is-invalid` and no message.  In the registration form with
passwords "Abcdef12" and "Abcdef13", validateForm leaves confirmPassword with
`is-invalid` and no message: the runs on the honeypot and the timestamp,
children of the form element, remove the first feedback elements of the
form. -/
theorem validateField_removes_other_error :
    ((validateField sharedParentForm
        ⟨[0, 0], Tag.input, "text", "firstName", "firstName", true, js "", false⟩
        View.initial).2 = false ∧
      (validateField sharedParentForm
        ⟨[0, 0], Tag.input, "text", "firstName", "firstName", true, js "", false⟩
        View.initial).1.shownError
          ⟨[0, 0], Tag.input, "text", "firstName", "firstName", true, js "", false⟩
        = some "This field is required" ∧
      (validateField sharedParentForm
        ⟨[0, 1], Tag.input, "text", "middleName", "middleName", false, js "", false⟩
        (validateField sharedParentForm
          ⟨[0, 0], Tag.input, "text", "firstName", "firstName", true, js "", false⟩
          View.initial).1).1.isInvalid
          ⟨[0, 0], Tag.input, "text", "firstName", "firstName", true, js "", false⟩ = true ∧
      (validateField sharedParentForm
        ⟨[0, 1], Tag.input, "text", "middleName", "middleName", false, js "", false⟩
        (validateField sharedParentForm
          ⟨[0, 0], Tag.input, "text", "firstName", "firstName", true, js "", false⟩
          View.initial).1).1.shownError
          ⟨[0, 0], Tag.input, "text", "firstName", "firstName", true, js "", false⟩ = none) ∧
    ((validateForm (registrationForm "Abcdef12" "Abcdef13" "" true "1000") 5000
        View.initial).1.isInvalid (wrapped 3 "password" "confirmPassword" true "Abcdef13")
        = true ∧
      (validateForm (registrationForm "Abcdef12" "Abcdef13" "" true "1000") 5000
        View.initial).1.shownError (wrapped 3 "password" "confirmPassword" true "Abcdef13")
        = none) := by
  decide

/-! ## Lemmas on phone formatting -/

theorem stripNonDigits_digits (s : JSString) : ∀ c ∈ stripNonDigits s, isDigit c = true :=
  fun _ hc => (List.mem_filter.mp hc).2

/-- A group on a string of digits takes its first `n` characters. -/
theorem captureDigits_digits (n : Nat) (d : JSString) (hd : ∀ c ∈ d, isDigit c = true) :
    captureDigits n d = (d.take n, d.drop n) := by
  have h1 : (d.take n).takeWhile isDigit = d.take n :=
    List.takeWhile_eq_self_iff.mpr (fun x hx => hd x (List.mem_of_mem_take hx))
  unfold captureDigits
  simp only [h1, List.length_take, Prod.mk.injEq, true_and]
  by_cases h : n ≤ d.length
  · rw [Nat.min_eq_left h]
  · have h2 : d.length ≤ n := by omega
    rw [Nat.min_eq_right h2, List.drop_eq_nil_of_le h2, List.drop_eq_nil_of_le (Nat.le_refl _)]

/-- The three groups on a string of digits. -/
theorem matchPhoneGroups_digits (d : JSString) (hd : ∀ c ∈ d, isDigit c = true) :
    matchPhoneGroups d = (d.take 3, (d.drop 3).take 3, (d.drop 6).take 4) := by
  have h3 : ∀ c ∈ d.drop 3, isDigit c = true := fun c hc => hd c (List.mem_of_mem_drop hc)
  have h6 : ∀ c ∈ d.drop (3 + 3), isDigit c = true :=
    fun c hc => hd c (List.mem_of_mem_drop hc)
  unfold matchPhoneGroups
  simp only [captureDigits_digits 3 d hd, captureDigits_digits 3 _ h3, List.drop_drop,
    captureDigits_digits 4 _ h6]

/-- The formatted value, written with the digits `d` of the input. -/
theorem formatPhoneValue_eq (s : JSString) :
    formatPhoneValue s =
      if (stripNonDigits s).length > 0 then
        if (((stripNonDigits s).drop 3).take 3).isEmpty then (stripNonDigits s).take 3
        else [40] ++ (stripNonDigits s).take 3 ++ [41, 32] ++ ((stripNonDigits s).drop 3).take 3
          ++ (if !(((stripNonDigits s).drop 6).take 4).isEmpty then
                [45] ++ ((stripNonDigits s).drop 6).take 4 else [])
      else stripNonDigits s := by
  unfold formatPhoneValue
  simp only [matchPhoneGroups_digits _ (stripNonDigits_digits s)]

/-- The digits of the formatted value are the first ten digits of the input. -/
theorem stripNonDigits_formatPhoneValue (s : JSString) :
    stripNonDigits (formatPhoneValue s) = (stripNonDigits s).take 10 := by
  rw [formatPhoneValue_eq]
  have hd := stripNonDigits_digits s
  generalize stripNonDigits s = d at hd ⊢
  have hf : ∀ l : JSString, (∀ c ∈ l, isDigit c = true) → stripNonDigits l = l :=
    fun l hl => List.filter_eq_self.mpr hl
  have h1 : ∀ c ∈ d.take 3, isDigit c = true := fun c hc => hd c (List.mem_of_mem_take hc)
  have h2 : ∀ c ∈ (d.drop 3).take 3, isDigit c = true :=
    fun c hc => hd c (List.mem_of_mem_drop (List.mem_of_mem_take hc))
  have h3 : ∀ c ∈ (d.drop 6).take 4, isDigit c = true :=
    fun c hc => hd c (List.mem_of_mem_drop (List.mem_of_mem_take hc))
  have hsplit : d.take 10 = d.take 3 ++ ((d.drop 3).take 3 ++ (d.drop 6).take 4) := by
    have e1 : d.take 10 = d.take 3 ++ (d.drop 3).take 7 := List.take_add d 3 7
    have e2 : (d.drop 3).take 7 = (d.drop 3).take 3 ++ ((d.drop 3).drop 3).take 4 :=
      List.take_add (d.drop 3) 3 4
    rw [e1, e2, List.drop_drop]
  by_cases hlen : d.length > 0
  · simp only [hlen, if_true]
    by_cases hg2 : ((d.drop 3).take 3).isEmpty = true
    · simp only [hg2, if_true]
      rw [hf _ h1, hsplit]
      have e2 : (d.drop 3).take 3 = [] := by simpa using hg2
      have e3 : d.drop 3 = [] := by
        rcases List.take_eq_nil_iff.mp e2 with h | h
        · exact absurd h (by decide)
        · exact h
      have e4 : d.drop 6 = [] := by
        have : d.drop 6 = (d.drop 3).drop 3 := by rw [List.drop_drop]
        rw [this, e3]
        rfl
      rw [e2, e4]
      simp
    · simp only [hg2, Bool.false_eq_true, if_false]
      have hs : stripNonDigits ([40] ++ d.take 3 ++ [41, 32] ++ (d.drop 3).take 3)
          = d.take 3 ++ (d.drop 3).take 3 := by
        unfold stripNonDigits
        rw [List.filter_append, List.filter_append, List.filter_append]
        have a1 : List.filter isDigit [40] = [] := by decide
        have a2 : List.filter isDigit [41, 32] = [] := by decide
        rw [a1, a2, List.filter_eq_self.mpr h1, List.filter_eq_self.mpr h2]
        simp
      by_cases hg3 : ((d.drop 6).take 4).isEmpty = true
      · simp only [hg3, Bool.not_true, Bool.false_eq_true, if_false, List.append_nil]
        have e3 : (d.drop 6).take 4 = [] := by simpa using hg3
        rw [hs, hsplit, e3]
        simp
      · simp only [hg3, Bool.not_false, if_true]
        have hs2 : stripNonDigits ([45] ++ (d.drop 6).take 4) = (d.drop 6).take 4 := by
          unfold stripNonDigits
          rw [List.filter_append]
          have a1 : List.filter isDigit [45] = [] := by decide
          rw [a1, List.filter_eq_self.mpr h3]
          rfl
        have happ : ∀ a b : JSString,
            stripNonDigits (a ++ b) = stripNonDigits a ++ stripNonDigits b :=
          fun a b => List.filter_append a b
        rw [happ, hs, hs2, hsplit]
        simp
  · simp only [hlen, if_false]
    have e : d = [] := by
      cases d with
      | nil => rfl
      | cons x xs => simp at hlen
    rw [e]
    rfl

/-! ## Lemmas on missing and unreadable elements -/

/-- When the speed check lets the form through, `validateForm` leaves the
alerts as they were. -/
theorem validateForm_alerts_of_slow (F : Form) (now : Int) (d : View)
    (h : slowEnough F now = true) : (validateForm F now d).1.alerts = d.alerts := by
  have ha := validateFields_alerts F F d true
  unfold slowEnough at h
  unfold validateForm
  generalize validateFields F F (d, true) = r at ha ⊢
  obtain ⟨d1, b1⟩ := r
  simp only at ha
  simp only
  have hterms : ∀ tc : Field,
      (addFieldError F tc "You must agree to the terms and conditions" d1).alerts = d.alerts := by
    intro tc
    rw [addFieldError_alerts, ha]
  cases hq : querySelectorId F "terms" with
  | none =>
    cases ht : querySelectorTimestamp F with
    | none => exact ha
    | some ts =>
      rw [ht] at h
      dsimp only at h ⊢
      cases hp : parseInt ts.value with
      | none => exact ha
      | some t =>
        rw [hp] at h
        have hlt : ¬ now - t < 2000 := by simpa using h
        simp only [hlt, if_false]
        exact ha
  | some tc =>
    dsimp only
    cases hch : tc.checked with
    | false =>
      simp only [Bool.not_false, if_true]
      cases ht : querySelectorTimestamp F with
      | none => exact hterms tc
      | some ts =>
        rw [ht] at h
        dsimp only at h ⊢
        cases hp : parseInt ts.value with
        | none => exact hterms tc
        | some t =>
          rw [hp] at h
          have hlt : ¬ now - t < 2000 := by simpa using h
          simp only [hlt, if_false]
          exact hterms tc
    | true =>
      simp only [Bool.not_true, Bool.false_eq_true, if_false]
      cases ht : querySelectorTimestamp F with
      | none => exact ha
      | some ts =>
        rw [ht] at h
        dsimp only at h ⊢
        cases hp : parseInt ts.value with
        | none => exact ha
        | some t =>
          rw [hp] at h
          have hlt : ¬ now - t < 2000 := by simpa using h
          simp only [hlt, if_false]
          exact ha

/-! ## C11: the field remembered for focus -/

/-- C11 fails on the code.  On the registration form with the terms unchecked,
an `input` event on `#password` at "Abcdef1" fails and makes `#password` the
remembered field; the next one, at "Abcdef12", passes and leaves it remembered.
On submit, validateForm returns false, the first and only failing field is
the terms checkbox at place [4, 0], yet firstInvalidField is still `#password`
at [2, 0], which passes in that run, and showFormErrors focuses it.  From a
state in which no field is remembered the same submit focuses the terms
checkbox. -/
theorem onSubmit_focuses_stale_field :
    (validateField (registrationForm "Abcdef1" "Abcdef12" "" false "1000")
        (wrapped 2 "password" "password" true "Abcdef1") View.initial).2 = false ∧
      viewAfterTyping.firstInvalidField = some [2, 0] ∧
      (validateForm (registrationForm "Abcdef12" "Abcdef12" "" false "1000") 5000
        viewAfterTyping).2 = false ∧
      (firstFailing (registrationForm "Abcdef12" "Abcdef12" "" false "1000")).map
        (fun f => f.path) = some [4, 0] ∧
      (validateField (registrationForm "Abcdef12" "Abcdef12" "" false "1000")
        (wrapped 2 "password" "password" true "Abcdef12") viewAfterTyping).2 = true ∧
      (validateForm (registrationForm "Abcdef12" "Abcdef12" "" false "1000") 5000
        viewAfterTyping).1.firstInvalidField = some [2, 0] ∧
      (onSubmit (registrationForm "Abcdef12" "Abcdef12" "" false "1000") 5000
        viewAfterTyping).2 = some [2, 0] ∧
      (onSubmit (registrationForm "Abcdef12" "Abcdef12" "" false "1000") 5000
        View.initial).2 = some [4, 0] := by
  decide

/-! ## C12: the listeners on `#email` and `#phone` -/

/-- C12 fails on the code.  The class defines neither `validateEmail` nor
`validatePhone`, which the listeners of setupEmailValidation and
setupPhoneValidation call: on every form, field and display state the listener
on `#email` raises `this.validateEmail is not a function`, and the listener on
`#phone`, after formatPhoneNumber, raises `this.validatePhone is not a
function`. -/
theorem input_listeners_raise :
    "validateEmail" ∉ definedMethods ∧ "validatePhone" ∉ definedMethods ∧
      (∀ (F : Form) (target : Field) (d : View),
        emailInputListener F target d = .error (.notAFunction "validateEmail")) ∧
      (∀ (F : Form) (target : Field) (d : View),
        phoneInputListener F target d = .error (.notAFunction "validatePhone")) ∧
      emailInputListener (contactForm "ada@example.com" "5551234" "1000")
        (wrapped 1 "email" "email" true "ada@example.com") View.initial
        = .error (.notAFunction "validateEmail") ∧
      phoneInputListener (contactForm "ada@example.com" "5551234" "1000")
        (wrapped 2 "tel" "phone" false "5551234") View.initial
        = .error (.notAFunction "validatePhone") :=
  ⟨by decide, by decide, fun _ _ _ => rfl, fun _ _ _ => rfl, rfl, rfl⟩

/-! ## C13: missing elements -/

/-- C13: a missing element disables its rule.  Without `#password`,
validateField on a non-empty field named confirmPassword that passes its type
case marks it valid and returns true.  Without `#terms`, validateForm returns
the conjunction of the field results and the speed check; without a timestamp
field, the conjunction of the field results and the terms check, and no alert
is added.  validateField and validateForm are total: every lookup that can
come back empty is matched on, and no path raises. -/
theorem validateForm_missing_elements (F : Form) (now : Int) (d : View) :
    (querySelectorId F "password" = none → ∀ c : Field, c.name = "confirmPassword" →
        isEmptyValue (getFieldValue c) = false → typeCheckPasses c = true →
        validateField F c d = (markFieldAsValid c (clearFieldError c d), true)) ∧
      (querySelectorId F "terms" = none →
        (validateForm F now d).2 =
          (F.all (fun f => (validateField F f View.initial).2) && slowEnough F now)) ∧
      (querySelectorTimestamp F = none →
        (validateForm F now d).2 =
            (F.all (fun f => (validateField F f View.initial).2) && termsChecked F) ∧
          (validateForm F now d).1.alerts = d.alerts) := by
  refine ⟨?_, ?_, ?_⟩
  · intro hp c hname hne ht
    unfold typeCheckPasses at ht
    simp only [Bool.and_eq_true, Bool.not_eq_true', Bool.and_eq_false_iff, beq_eq_false_iff_ne,
      Bool.not_eq_false'] at ht
    obtain ⟨⟨h1, h2⟩, h3⟩ := ht
    have e1 : (c.type == "email" && !isValidEmail (getFieldValue c).text) = false := by
      rcases h1 with h | h
      · simp [h]
      · simp [h]
    have e2 : (c.type == "tel" && !isValidPhone (getFieldValue c).text) = false := by
      rcases h2 with h | h
      · simp [h]
      · simp [h]
    have e3 : (c.type == "password" && !isValidPassword (getFieldValue c).text) = false := by
      rcases h3 with h | h
      · simp [h]
      · simp [h]
    unfold validateField
    simp only [hne, hname, hp, Bool.and_false, Bool.false_eq_true, if_false, beq_self_eq_true,
      if_true, e1, e2, e3]
  · intro hq
    have : termsChecked F = true := by simp [termsChecked, hq]
    rw [validateForm_snd, this, Bool.and_true]
  · intro ht
    have hs : slowEnough F now = true := by simp [slowEnough, ht]
    exact ⟨by rw [validateForm_snd, hs, Bool.and_true], validateForm_alerts_of_slow F now d hs⟩

/-- C13 on the contact form, which has no `#password` and no `#terms`: its
confirmPassword field passes, and the form passes 4000 ms after the timestamp;
the bare form, with no timestamp field either, passes at any time. -/
theorem validateForm_missing_elements_witness :
    (validateField (contactForm "ada@example.com" "" "1000")
        (wrapped 3 "text" "confirmPassword" false "Abcdef12") View.initial).2 = true ∧
      (validateForm (contactForm "ada@example.com" "" "1000") 5000 View.initial).2 = true ∧
      (validateForm (bareForm "Ada") 0 View.initial).2 = true :=
  ⟨by
      rw [(validateForm_missing_elements (contactForm "ada@example.com" "" "1000") 5000
        View.initial).1 (by decide) (wrapped 3 "text" "confirmPassword" false "Abcdef12")
        (by decide) (by decide) (by decide)],
    ((validateForm_missing_elements (contactForm "ada@example.com" "" "1000") 5000
        View.initial).2.1 (by decide)).trans (by decide),
    ((validateForm_missing_elements (bareForm "Ada") 0 View.initial).2.2 (by decide)).1.trans
      (by decide)⟩

/-! ## C14: formatPhoneNumber -/

/-- C14: formatPhoneNumber writes a value that depends on the digits d of
the old value alone: no digit gives the empty string; 1 to 3 digits give d;
4 to 6 digits give `(`, the first three digits, `) ` and the rest; 7 or more
give `(`, three digits, `) `, three digits, `-` and the seventh to the tenth
digit.  Formatting a formatted field changes nothing. -/
theorem formatPhoneNumber_spec (f : Field) :
    ((stripNonDigits f.value).length = 0 → (formatPhoneNumber f).value = []) ∧
      (1 ≤ (stripNonDigits f.value).length → (stripNonDigits f.value).length ≤ 3 →
        (formatPhoneNumber f).value = stripNonDigits f.value) ∧
      (4 ≤ (stripNonDigits f.value).length → (stripNonDigits f.value).length ≤ 6 →
        (formatPhoneNumber f).value =
          [40] ++ (stripNonDigits f.value).take 3 ++ [41, 32] ++ (stripNonDigits f.value).drop 3) ∧
      (7 ≤ (stripNonDigits f.value).length →
        (formatPhoneNumber f).value =
          [40] ++ (stripNonDigits f.value).take 3 ++ [41, 32]
            ++ ((stripNonDigits f.value).drop 3).take 3 ++ [45]
            ++ ((stripNonDigits f.value).drop 6).take 4) ∧
      (∀ g : Field, stripNonDigits g.value = stripNonDigits f.value →
        (formatPhoneNumber g).value = (formatPhoneNumber f).value) ∧
      formatPhoneNumber (formatPhoneNumber f) = formatPhoneNumber f := by
  have hv : (formatPhoneNumber f).value = formatPhoneValue f.value := rfl
  rw [hv, formatPhoneValue_eq]
  refine ⟨?_, ?_, ?_, ?_, ?_, ?_⟩
  · intro h0
    have e : stripNonDigits f.value = [] := List.length_eq_zero.mp h0
    rw [e]
    rfl
  · intro h1 h3
    have hlen : (stripNonDigits f.value).length > 0 := by omega
    have e3 : (stripNonDigits f.value).drop 3 = [] := List.drop_eq_nil_of_le h3
    simp only [hlen, if_true, e3, List.take_nil, List.isEmpty_nil]
    exact List.take_of_length_le h3
  · intro h4 h6
    have hlen : (stripNonDigits f.value).length > 0 := by omega
    have e6 : (stripNonDigits f.value).drop 6 = [] := List.drop_eq_nil_of_le h6
    have e3 : ((stripNonDigits f.value).drop 3).take 3 = (stripNonDigits f.value).drop 3 :=
      List.take_of_length_le (by rw [List.length_drop]; omega)
    have n3 : ((stripNonDigits f.value).drop 3).isEmpty = false := by
      rw [Bool.eq_false_iff]
      intro h
      have := List.isEmpty_iff.mp h
      have hl : ((stripNonDigits f.value).drop 3).length = 0 := by rw [this]; rfl
      rw [List.length_drop] at hl
      omega
    simp only [hlen, if_true, e6, e3, n3, List.take_nil, List.isEmpty_nil, Bool.not_true,
      Bool.false_eq_true, if_false, List.append_nil]
  · intro h7
    have hlen : (stripNonDigits f.value).length > 0 := by omega
    have n3 : (((stripNonDigits f.value).drop 3).take 3).isEmpty = false := by
      rw [Bool.eq_false_iff]
      intro h
      have := List.isEmpty_iff.mp h
      have hl : (((stripNonDigits f.value).drop 3).take 3).length = 0 := by rw [this]; rfl
      rw [List.length_take, List.length_drop] at hl
      omega
    have n6 : (((stripNonDigits f.value).drop 6).take 4).isEmpty = false := by
      rw [Bool.eq_false_iff]
      intro h
      have := List.isEmpty_iff.mp h
      have hl : (((stripNonDigits f.value).drop 6).take 4).length = 0 := by rw [this]; rfl
      rw [List.length_take, List.length_drop] at hl
      omega
    simp only [hlen, if_true, n3, n6, Bool.not_false, Bool.false_eq_true, if_false,
      List.append_assoc]
  · intro g hg
    have hg2 : (formatPhoneNumber g).value = formatPhoneValue g.value := rfl
    rw [hg2, formatPhoneValue_eq, hg]
  · have hidem : formatPhoneValue (formatPhoneValue f.value) = formatPhoneValue f.value := by
      rw [formatPhoneValue_eq (formatPhoneValue f.value), stripNonDigits_formatPhoneValue,
        formatPhoneValue_eq f.value]
      generalize stripNonDigits f.value = d
      have t1 : (d.take 10).take 3 = d.take 3 := by
        rw [List.take_take]; rfl
      have t2 : ((d.take 10).drop 3).take 3 = (d.drop 3).take 3 := by
        rw [List.drop_take, List.take_take]; rfl
      have t3 : ((d.take 10).drop 6).take 4 = (d.drop 6).take 4 := by
        rw [List.drop_take, List.take_take]; rfl
      rw [t1, t2, t3]
      by_cases hlen : d.length > 0
      · have hlen2 : (d.take 10).length > 0 := by
          rw [List.length_take]; omega
        simp only [hlen, hlen2, if_true]
      · have e : d = [] := by
          cases d with
          | nil => rfl
          | cons x xs => simp at hlen
        rw [e]
        rfl
    show ({ f with value := formatPhoneValue (formatPhoneValue f.value) } : Field)
      = { f with value := formatPhoneValue f.value }
    rw [hidem]

/-- C14 on "+1 (555) 123-4567 ext 9": twelve digits, of which ten are kept,
and the result is a fixed point. -/
theorem formatPhoneNumber_spec_witness :
    (formatPhoneNumber (wrapped 2 "tel" "phone" false "+1 (555) 123-4567 ext 9")).value
        = js "(155) 512-3456" ∧
      formatPhoneNumber (formatPhoneNumber (wrapped 2 "tel" "phone" false "(155) 512-3456"))
        = formatPhoneNumber (wrapped 2 "tel" "phone" false "(155) 512-3456") :=
  ⟨((formatPhoneNumber_spec
      (wrapped 2 "tel" "phone" false "+1 (555) 123-4567 ext 9")).2.2.2.1 (by decide)).trans
      (by decide),
    (formatPhoneNumber_spec (wrapped 2 "tel" "phone" false "(155) 512-3456")).2.2.2.2.2⟩

/-! ## C15: a timestamp that is no number -/

/-- C15: when the timestamp field holds a value that parseInt does not
read, the speed check lets the form through at every time: validateForm
returns the conjunction of the field results and the terms check, so it
returns true when all of them pass, and it leaves the alerts as they were. -/
theorem validateForm_unreadable_timestamp (F : Form) (now : Int) (d : View) (ts : Field)
    (hts : querySelectorTimestamp F = some ts) (hp : parseInt ts.value = none) :
    slowEnough F now = true ∧
      (validateForm F now d).2 =
        (F.all (fun f => (validateField F f View.initial).2) && termsChecked F) ∧
      (validateForm F now d).1.alerts = d.alerts ∧
      ((∀ f ∈ F, ∀ d2, (validateField F f d2).2 = true) → termsChecked F = true →
        (validateForm F now d).2 = true) := by
  have hs : slowEnough F now = true := by simp [slowEnough, hts, hp]
  have hv : (validateForm F now d).2 =
      (F.all (fun f => (validateField F f View.initial).2) && termsChecked F) := by
    rw [validateForm_snd, hs, Bool.and_true]
  refine ⟨hs, hv, validateForm_alerts_of_slow F now d hs, ?_⟩
  intro hall hterms
  rw [hv, hterms, Bool.and_true, List.all_eq_true]
  intro f hf
  exact hall f hf View.initial

/-- C15 on the registration form with the timestamps "" and "soon", one
millisecond after loading: parseInt reads neither, and the form passes with no
alert. -/
theorem validateForm_unreadable_timestamp_witness :
    parseInt (js "") = none ∧ parseInt (js "soon") = none ∧
      (validateForm (registrationForm "Abcdef12" "Abcdef12" "" true "") 1 View.initial).2
        = true ∧
      (validateForm (registrationForm "Abcdef12" "Abcdef12" "" true "soon") 1
        View.initial).1.alerts = [] :=
  ⟨by decide, by decide,
    ((validateForm_unreadable_timestamp (registrationForm "Abcdef12" "Abcdef12" "" true "") 1
      View.initial (timestampField 6 "") (by decide) (by decide)).2.1).trans (by decide),
    (validateForm_unreadable_timestamp (registrationForm "Abcdef12" "Abcdef12" "" true "soon") 1
      View.initial (timestampField 6 "soon") (by decide) (by decide)).2.2.1⟩

end FormValidator
